import Mathlib

/-!
Inventory bookkeeping of `cli-utils`: identity codec, set algebra, hash, inventory client

A shallow embedding of

* `pkg/object` (the identity codec `CreateObjMetadata` / `String` / `ParseObjMetadata`,
  the set algebra `SetEquals` / `SetDiff` / `Union` and `Hash`), whose implementation file
  is not part of the sources at hand: only `objmetadata_test.go` is.  Those
  definitions are modelled from the specification and pinned by the fixtures of the
  test file;
* `pkg/inventory/inventory-client.go` (`ClusterInventoryClient`), translated
  function by function.  Everything the client calls that lives outside that file
  (the REST mapper, the resource builder, the resource helper, the inventory
  wrapper returned by `InventoryFactoryFunc`, ...) is a field of the client
  structure, exactly as most of them are fields of the Go struct.

Go strings are modelled by `String`; the codec works on the character list.  The
reserved characters `_` and `:` are ASCII, so working on characters instead of
bytes does not change any result.
-/

set_option autoImplicit false

namespace CliUtils

/-! ## Errors -/

/-- A Go `error` value.  `errorf` is an error returned by the callee; `panic` stands
for a run-time panic, raised by indexing an empty slice (`invInfos[0]` in `toInfo`,
and `invObjs[0]` in `mergeClusterInventory` should the sort hand back an empty
slice).  Every caller in the embedded code returns at once on a non-nil error, so a
panic travels the same way as a returned error. -/
inductive GoError where
  | errorf (msg : String)
  | panic (msg : String)
  deriving DecidableEq, Repr

/-! ## `pkg/object`: identities and their textual encoding -/

/-- The type `schema.GroupKind` of apimachinery. -/
structure GroupKind where
  Group : String
  Kind : String
  deriving DecidableEq, Repr

/-- The method `GroupKind.Empty` of apimachinery: both fields are empty. -/
def GroupKind.Empty (gk : GroupKind) : Bool :=
  gk.Group.data.isEmpty && gk.Kind.data.isEmpty

/-- The struct `ObjMetadata` as the test file builds it:
`ObjMetadata{Namespace, Name, GroupKind}`. -/
structure ObjMetadata where
  Namespace : String
  Name : String
  GroupKind : GroupKind
  deriving DecidableEq, Repr

/-- Modelled from the spec: the field delimiter of the encoded identity string
(the constant is declared in the missing `objmetadata.go`; the fixtures show `_`). -/
def fieldSeparator : Char := '_'

/-- Modelled from the spec: the second reserved character, escaped inside names
(declared in the missing `objmetadata.go`; the fixtures show `:`). -/
def colonChar : Char := ':'

/-- Modelled from the spec: escaping of a name, missing with `objmetadata.go`.
"escaping every literal occurrence of a second reserved character inside `name`
into a two-character escape sequence built from the delimiter": every `:` becomes
`__` (fixture: `system::kube-scheduler` gives `system____kube-scheduler`). -/
def escapeName : List Char → List Char
  | [] => []
  | c :: cs =>
    if c = colonChar then fieldSeparator :: fieldSeparator :: escapeName cs
    else c :: escapeName cs

/-- Modelled from the spec: un-escaping, missing with `objmetadata.go`.  Every `__`,
scanning from the left without overlap, becomes `:`. -/
def unescapeName : List Char → List Char
  | [] => []
  | [c] => [c]
  | c :: d :: cs =>
    if c = fieldSeparator ∧ d = fieldSeparator then colonChar :: unescapeName cs
    else c :: unescapeName (d :: cs)

/-- Modelled from the spec: `CreateObjMetadata` of the missing `objmetadata.go`.
"fails with `InvalidIdentity` if `name` is empty or if both `group` and `kind` are
empty"; otherwise the identity is built from the four values. -/
def CreateObjMetadata (namespace_ name : String) (gk : GroupKind) :
    Except GoError ObjMetadata :=
  if name.data.isEmpty then .error (.errorf "empty name for object")
  else if gk.Empty then .error (.errorf "GroupKind is empty")
  else .ok { Namespace := namespace_, Name := name, GroupKind := gk }

/-- Modelled from the spec: the method `ObjMetadata.String` of the missing
`objmetadata.go`.  "built by joining `namespace`, `name`, `group`, `kind` with a
single reserved delimiter character, after escaping every literal occurrence of a
second reserved character inside `name`". -/
def ObjMetadata.String (o : ObjMetadata) : String :=
  String.mk (o.Namespace.data ++ fieldSeparator :: (escapeName o.Name.data ++
    fieldSeparator :: (o.GroupKind.Group.data ++ fieldSeparator :: o.GroupKind.Kind.data)))

/-- Cut a string at its first delimiter: the text before it and the text after it
(`none` when there is no delimiter). -/
def splitFirst : List Char → Option (List Char × List Char)
  | [] => none
  | c :: cs =>
    if c = fieldSeparator then some ([], cs)
    else match splitFirst cs with
      | none => none
      | some (a, b) => some (c :: a, b)

/-- Cut a string at its last delimiter: the text before it and the text after it
(`none` when there is no delimiter). -/
def splitLast (s : List Char) : Option (List Char × List Char) :=
  match splitFirst s.reverse with
  | none => none
  | some (a, b) => some (b.reverse, a.reverse)

/-- Modelled from the spec: `ParseObjMetadata` of the missing `objmetadata.go`.
"fails with `MalformedEncoding` if the field count after un-escaping is not exactly
4, or if the resulting name is empty.  Must be the exact left inverse of `Encode`
on its image."  The fixtures of `TestParseObjMetadata` fix where the un-escaping
applies: `test-namespace___leader-locking-kube-scheduler_..._ClusterRole` has the
name `:leader-locking-kube-scheduler` in the namespace `test-namespace`, and
`test-namespace_leader-locking-kube-scheduler___..._RoleBinding` has the name
`leader-locking-kube-scheduler:`.  So the namespace ends at the first delimiter,
kind and group are the last two delimited fields, the name is what lies between,
un-escaped, and a delimiter left in the name means too many fields. -/
def ParseObjMetadata (s : String) : Except GoError ObjMetadata :=
  match splitFirst s.data with
  | none => .error (.errorf "unable to parse stored object metadata")
  | some (namespace_, rest) =>
    match splitLast rest with
    | none => .error (.errorf "unable to parse stored object metadata")
    | some (rest2, kind) =>
      match splitLast rest2 with
      | none => .error (.errorf "unable to parse stored object metadata")
      | some (nameEnc, group) =>
        let name := unescapeName nameEnc
        if fieldSeparator ∈ name then .error (.errorf "too many fields")
        else if name.isEmpty then .error (.errorf "empty name for object")
        else .ok { Namespace := String.mk namespace_, Name := String.mk name,
                   GroupKind := { Group := String.mk group, Kind := String.mk kind } }

/-! ## `pkg/object`: set algebra -/

/-- Modelled from the spec: `SetEquals` of the missing `objmetadata.go`.  "true iff
every element of A is in B and every element of B is in A, regardless of order or
duplication." -/
def SetEquals (setA setB : List ObjMetadata) : Bool :=
  setA.all (fun a => decide (a ∈ setB)) && setB.all (fun b => decide (b ∈ setA))

/-- Modelled from the spec: `SetDiff` of the missing `objmetadata.go`.  "identities
in A not present in B (B's extra elements are ignored)", returned as a set: each
identity once.  The order of the result is unspecified in the spec; the model
keeps the order of `setA`. -/
def SetDiff (setA setB : List ObjMetadata) : List ObjMetadata :=
  (setA.filter (fun a => decide (a ∉ setB))).dedup

/-- Modelled from the spec: `Union` of the missing `objmetadata.go`.  "all
identities present in A or B, each exactly once."  The order of the result is
unspecified in the spec; the model lists `setA` before `setB`. -/
def Union (setA setB : List ObjMetadata) : List ObjMetadata :=
  (setA ++ setB).dedup

/-! ## `pkg/common`: the dry-run strategy -/

/-- Modelled from the spec: `common.DryRunStrategy`, declared in the missing
`pkg/common`.  "`{None, Client, Server}`". -/
inductive DryRunStrategy where
  | DryRunNone
  | DryRunClient
  | DryRunServer
  deriving DecidableEq, Repr

/-- Modelled from the spec: `DryRunStrategy.ClientOrServerDryRun`, declared in the
missing `pkg/common`.  "`Client` and `Server` both suppress any mutation sent to
the remote store". -/
def DryRunStrategy.ClientOrServerDryRun : DryRunStrategy → Bool
  | .DryRunNone => false
  | .DryRunClient => true
  | .DryRunServer => true

/-! ## `pkg/inventory/inventory-client.go` -/

/-- A call that reaches the remote store.  `infos` is the label-selector fetch of
`getClusterInventoryInfo` (`builder. ... .Do().Infos()`); `replace`, `create` and
`delete` are `helper.Replace`, `helper.Create` and `helper.Delete`, recorded with
the `resource.Info` they are issued for. -/
inductive RemoteOp (I : Type) where
  | infos (groupResource namespace_ labelSelector : String)
  | replace (info : I)
  | create (info : I)
  | delete (info : I)
  deriving DecidableEq, Repr

/-- The calls that change the remote store. -/
def RemoteOp.isMutation {I : Type} : RemoteOp I → Bool
  | .infos _ _ _ => false
  | .replace _ => true
  | .create _ => true
  | .delete _ => true

/-- What a call of the client can read and change outside itself: the state of the
remote store and the remote calls issued so far, oldest first. -/
structure World (S I : Type) where
  cluster : S
  trace : List (RemoteOp I)
  deriving DecidableEq, Repr

/-- The mutating remote calls issued so far. -/
def World.mutations {S I : Type} (w : World S I) : List (RemoteOp I) :=
  w.trace.filter RemoteOp.isMutation

/-- Append a remote call to the trace and install the new store state. -/
def World.record {S I : Type} (w : World S I) (op : RemoteOp I) (cluster : S) : World S I :=
  { cluster := cluster, trace := w.trace ++ [op] }

/-- The struct `ClusterInventoryClient` together with everything its methods call
outside `inventory-client.go`.

Type parameters: `U` is `unstructured.Unstructured`, `I` is `resource.Info`, `M` is
`meta.RESTMapping`, `C` is `resource.RESTClient`, `H` is `resource.Helper`, `R` is
`runtime.Object`, `S` is the state of the remote store, `W` is the wrapper returned
by `InventoryFactoryFunc` (the Go interface `Inventory`).  A pointer that may be
nil is an `Option`.

* `builderInfos` is `builderFunc()` with the builder chain of
  `getClusterInventoryInfo` up to `.Do().Infos()`, given the store state, the group
  resource, the namespace and the label selector (the field `validator` only
  feeds this chain);
* `mapper` is `mapper.RESTMapping`, `clientFunc`, `dryRunStrategy` and
  `InventoryFactoryFunc` are the Go fields, `BuildInfos` is `infoHelper.BuildInfos`;
* `Load`, `Store`, `GetObject` are the methods of the wrapper; `Store` changes the
  wrapper, so it returns the new one;
* `UnstructuredToObjMeta`, `InfoToUnstructured`, `InfosToUnstructureds`,
  `InfoToObjMeta` are the functions of `pkg/object`, `retrieveInventoryLabel` and
  `fixLegacyInventoryName` those of `pkg/inventory`, `InventoryLabel` the constant
  of `pkg/common`, `sortUnstructureds` is `sort.Sort(ordering.SortableUnstructureds(..))`;
* `groupResource` is `mapping.Resource.GroupResource().String()`, `NewHelper`,
  `infoClient`, `infoMapping` build the `resource.Helper`;
* `helperReplace`, `helperCreate`, `helperDelete` are the three mutating remote
  calls: from the store state they give the result and the new store state;
  `Refresh` is `Info.Refresh` with its `ignoreError` flag. -/
structure ClusterInventoryClient (U I M C H R S W : Type) where
  builderInfos : S → String → String → String → Except GoError (List I)
  mapper : GroupKind → Except GoError M
  clientFunc : M → Except GoError C
  dryRunStrategy : DryRunStrategy
  InventoryFactoryFunc : Option U → W
  BuildInfos : List U → Except GoError (List I)
  Load : W → List ObjMetadata × Option GoError
  Store : W → List ObjMetadata → Except GoError W
  GetObject : W → Except GoError (Option U)
  UnstructuredToObjMeta : U → ObjMetadata
  InfoToUnstructured : I → U
  InfosToUnstructureds : List I → List U
  InfoToObjMeta : I → Except GoError ObjMetadata
  retrieveInventoryLabel : U → Except GoError String
  fixLegacyInventoryName : U → Except GoError U
  InventoryLabel : String
  sortUnstructureds : List U → List U
  groupResource : M → String
  NewHelper : C → M → H
  infoClient : I → C
  infoMapping : I → M
  helperReplace : H → S → I → Except GoError R × S
  helperCreate : H → S → I → Except GoError R × S
  helperDelete : H → S → I → Option GoError × S
  Refresh : I → R → Bool → Option GoError

section Client

variable {U I M C H R S W : Type}

/-- The method `SetDryRunStrategy`. -/
def SetDryRunStrategy (cic : ClusterInventoryClient U I M C H R S W) (drs : DryRunStrategy) :
    ClusterInventoryClient U I M C H R S W :=
  { cic with dryRunStrategy := drs }

/-- The method `toInfo`: `BuildInfos` on the one-element slice, then `invInfos[0]`. -/
def toInfo (cic : ClusterInventoryClient U I M C H R S W) (obj : U) : Except GoError I :=
  match cic.BuildInfos [obj] with
  | .error err => .error err
  | .ok [] => .error (.panic "index out of range [0] with length 0")
  | .ok (info :: _) => .ok info

/-- The method `helperFromInfo`. -/
def helperFromInfo (cic : ClusterInventoryClient U I M C H R S W) (info : I) :
    Except GoError H :=
  match cic.InfoToObjMeta info with
  | .error err => .error err
  | .ok obj =>
    match cic.mapper obj.GroupKind with
    | .error err => .error err
    | .ok mapping =>
      match cic.clientFunc mapping with
      | .error err => .error err
      | .ok client => .ok (cic.NewHelper client mapping)

/-- The method `applyInventoryObj`. -/
def applyInventoryObj (cic : ClusterInventoryClient U I M C H R S W) (obj : Option U)
    (w : World S I) : Option GoError × World S I :=
  if cic.dryRunStrategy.ClientOrServerDryRun then (none, w)
  else match obj with
    | none => (some (.errorf "attempting apply a nil inventory object"), w)
    | some o =>
      match toInfo cic o with
      | .error err => (some err, w)
      | .ok invInfo =>
        let helper := cic.NewHelper (cic.infoClient invInfo) (cic.infoMapping invInfo)
        match cic.helperReplace helper w.cluster invInfo with
        | (.error err, cluster) => (some err, w.record (.replace invInfo) cluster)
        | (.ok replacedObj, cluster) =>
          (cic.Refresh invInfo replacedObj true, w.record (.replace invInfo) cluster)

/-- The method `createInventoryObj`. -/
def createInventoryObj (cic : ClusterInventoryClient U I M C H R S W) (obj : Option U)
    (w : World S I) : Option GoError × World S I :=
  if cic.dryRunStrategy.ClientOrServerDryRun then (none, w)
  else match obj with
    | none => (some (.errorf "attempting create a nil inventory object"), w)
    | some o =>
      match cic.fixLegacyInventoryName o with
      | .error err => (some err, w)
      | .ok o1 =>
        match toInfo cic o1 with
        | .error err => (some err, w)
        | .ok invInfo =>
          match helperFromInfo cic invInfo with
          | .error err => (some err, w)
          | .ok helper =>
            match cic.helperCreate helper w.cluster invInfo with
            | (.error err, cluster) => (some err, w.record (.create invInfo) cluster)
            | (.ok createdObj, cluster) =>
              (cic.Refresh invInfo createdObj true, w.record (.create invInfo) cluster)

/-- The method `DeleteInventoryObj`. -/
def DeleteInventoryObj (cic : ClusterInventoryClient U I M C H R S W) (obj : Option U)
    (w : World S I) : Option GoError × World S I :=
  if cic.dryRunStrategy.ClientOrServerDryRun then (none, w)
  else match obj with
    | none => (some (.errorf "attempting delete a nil inventory object"), w)
    | some o =>
      match toInfo cic o with
      | .error err => (some err, w)
      | .ok invInfo =>
        match helperFromInfo cic invInfo with
        | .error err => (some err, w)
        | .ok helper =>
          match cic.helperDelete helper w.cluster invInfo with
          | (err, cluster) => (err, w.record (.delete invInfo) cluster)

/-- The first loop of `mergeClusterInventory`: load every other inventory object
and fold its objects into the retained ones. -/
def mergeLoadLoop (cic : ClusterInventoryClient U I M C H R S W) :
    List ObjMetadata → List U → Except GoError (List ObjMetadata)
  | retainedObjs, [] => .ok retainedObjs
  | retainedObjs, merge :: rest =>
    match cic.Load (cic.InventoryFactoryFunc (some merge)) with
    | (_, some err) => .error err
    | (mergeObjs, none) => mergeLoadLoop cic (Union retainedObjs mergeObjs) rest

/-- The second loop of `mergeClusterInventory`: delete every other inventory
object, stopping at the first error. -/
def mergeDeleteLoop (cic : ClusterInventoryClient U I M C H R S W) :
    List U → World S I → Option GoError × World S I
  | [], w => (none, w)
  | merge :: rest, w =>
    match DeleteInventoryObj cic (some merge) w with
    | (some err, w1) => (some err, w1)
    | (none, w1) => mergeDeleteLoop cic rest w1

/-- The method `mergeClusterInventory`.  The slice is sorted in place, so
`invObjs[0]` and the two loops from index 1 read the sorted slice. -/
def mergeClusterInventory (cic : ClusterInventoryClient U I M C H R S W) (invObjs : List U)
    (w : World S I) : Except GoError (Option U) × World S I :=
  if invObjs.length = 0 then (.ok none, w)
  else match cic.sortUnstructureds invObjs with
    | [] => (.error (.panic "index out of range [0] with length 0"), w)
    | retained :: others =>
      let wrapRetained := cic.InventoryFactoryFunc (some retained)
      match cic.Load wrapRetained with
      | (_, some err) => (.error err, w)
      | (retainedObjs, none) =>
        match mergeLoadLoop cic retainedObjs others with
        | .error err => (.error err, w)
        | .ok retainedObjs1 =>
          match cic.Store wrapRetained retainedObjs1 with
          | .error err => (.error err, w)
          | .ok wrapRetained1 =>
            match cic.GetObject wrapRetained1 with
            | .error err => (.error err, w)
            | .ok retainInfo =>
              match applyInventoryObj cic retainInfo w with
              | (some err, w1) => (.error err, w1)
              | (none, w1) =>
                match mergeDeleteLoop cic others w1 with
                | (some err, w2) => (.error err, w2)
                | (none, w2) => (.ok retainInfo, w2)

/-- The method `getClusterInventoryInfo`.  The tests `len(..) == 1` and
`len(..) > 1` on the retrieved infos are the three list patterns. -/
def getClusterInventoryInfo (cic : ClusterInventoryClient U I M C H R S W)
    (localInv : Option U) (w : World S I) : Except GoError (Option U) × World S I :=
  match localInv with
  | none =>
    (.error (.errorf "retrieving cluster inventory object with nil local inventory"), w)
  | some inv =>
    let localObj := cic.UnstructuredToObjMeta inv
    match cic.mapper localObj.GroupKind with
    | .error err => (.error err, w)
    | .ok mapping =>
      let groupResource := cic.groupResource mapping
      let namespace_ := localObj.Namespace
      match cic.retrieveInventoryLabel inv with
      | .error err => (.error err, w)
      | .ok label =>
        let labelSelector := cic.InventoryLabel ++ "=" ++ label
        let w1 := w.record (.infos groupResource namespace_ labelSelector) w.cluster
        match cic.builderInfos w.cluster groupResource namespace_ labelSelector with
        | .error err => (.error err, w1)
        | .ok retrievedInventoryInfos =>
          match retrievedInventoryInfos with
          | [] => (.ok none, w1)
          | [info] => (.ok (some (cic.InfoToUnstructured info)), w1)
          | _ :: _ :: _ =>
            mergeClusterInventory cic (cic.InfosToUnstructureds retrievedInventoryInfos) w1

/-- The method `GetClusterObjs`. -/
def GetClusterObjs (cic : ClusterInventoryClient U I M C H R S W) (localInv : Option U)
    (w : World S I) : (List ObjMetadata × Option GoError) × World S I :=
  match getClusterInventoryInfo cic localInv w with
  | (.error err, w1) => (([], some err), w1)
  | (.ok none, w1) => (([], none), w1)
  | (.ok (some clusterInv), w1) => (cic.Load (cic.InventoryFactoryFunc (some clusterInv)), w1)

/-- The method `Merge`.  A nil slice and an empty slice are both `[]`. -/
def Merge (cic : ClusterInventoryClient U I M C H R S W) (localInv : Option U)
    (objs : List ObjMetadata) (w : World S I) :
    (List ObjMetadata × Option GoError) × World S I :=
  let pruneIds : List ObjMetadata := []
  match getClusterInventoryInfo cic localInv w with
  | (.error err, w1) => ((pruneIds, some err), w1)
  | (.ok none, w1) =>
    let inv := cic.InventoryFactoryFunc localInv
    match cic.Store inv objs with
    | .error err => (([], some err), w1)
    | .ok inv1 =>
      match cic.GetObject inv1 with
      | .error err => (([], some err), w1)
      | .ok invInfo =>
        match createInventoryObj cic invInfo w1 with
        | (some err, w2) => (([], some err), w2)
        | (none, w2) => ((pruneIds, none), w2)
  | (.ok (some clusterInv), w1) =>
    match GetClusterObjs cic localInv w1 with
    | ((_, some err), w2) => ((pruneIds, some err), w2)
    | ((clusterObjs, none), w2) =>
      if SetEquals objs clusterObjs then ((pruneIds, none), w2)
      else
        let pruneIds := SetDiff clusterObjs objs
        let unionObjs := Union clusterObjs objs
        let wrappedInv := cic.InventoryFactoryFunc (some clusterInv)
        match cic.Store wrappedInv unionObjs with
        | .error err => ((pruneIds, some err), w2)
        | .ok wrappedInv1 =>
          if !cic.dryRunStrategy.ClientOrServerDryRun then
            match cic.GetObject wrappedInv1 with
            | .error err => ((pruneIds, some err), w2)
            | .ok clusterInv1 =>
              match applyInventoryObj cic clusterInv1 w2 with
              | (some err, w3) => ((pruneIds, some err), w3)
              | (none, w3) => ((pruneIds, none), w3)
          else ((pruneIds, none), w2)

/-- The method `Replace`. -/
def Replace (cic : ClusterInventoryClient U I M C H R S W) (localInv : Option U)
    (objs : List ObjMetadata) (w : World S I) : Option GoError × World S I :=
  match GetClusterObjs cic localInv w with
  | ((_, some err), w1) => (some err, w1)
  | ((clusterObjs, none), w1) =>
    if SetEquals objs clusterObjs then (none, w1)
    else
      match getClusterInventoryInfo cic localInv w1 with
      | (.error err, w2) => (some err, w2)
      | (.ok clusterInv, w2) =>
        let wrappedInv := cic.InventoryFactoryFunc clusterInv
        match cic.Store wrappedInv objs with
        | .error err => (some err, w2)
        | .ok wrappedInv1 =>
          if !cic.dryRunStrategy.ClientOrServerDryRun then
            match cic.GetObject wrappedInv1 with
            | .error err => (some err, w2)
            | .ok clusterInv1 => applyInventoryObj cic clusterInv1 w2
          else (none, w2)

end Client

/-! ## Sequences of client calls -/

/-- One call of a method of the client that can reach a mutation path. -/
inductive Call (U : Type) where
  | merge (localInv : Option U) (objs : List ObjMetadata)
  | replace (localInv : Option U) (objs : List ObjMetadata)
  | getClusterObjs (localInv : Option U)
  | mergeClusterInventory (invObjs : List U)
  | deleteInventoryObj (obj : Option U)

section Calls

variable {U I M C H R S W : Type}

/-- The world after one call (the returned values are dropped). -/
def runCall (cic : ClusterInventoryClient U I M C H R S W) (w : World S I) :
    Call U → World S I
  | .merge localInv objs => (Merge cic localInv objs w).2
  | .replace localInv objs => (Replace cic localInv objs w).2
  | .getClusterObjs localInv => (GetClusterObjs cic localInv w).2
  | .mergeClusterInventory invObjs => (mergeClusterInventory cic invObjs w).2
  | .deleteInventoryObj obj => (DeleteInventoryObj cic obj w).2

/-- The world after a sequence of calls, issued one after the other. -/
def runCalls (cic : ClusterInventoryClient U I M C H R S W) (calls : List (Call U))
    (w : World S I) : World S I :=
  calls.foldl (runCall cic) w

end Calls

/-! ## Vocabulary of the statements about the codec -/

/-- None of the four fields contains the delimiter `_`. -/
def ObjMetadata.delimiterFree (o : ObjMetadata) : Prop :=
  fieldSeparator ∉ o.Namespace.data ∧ fieldSeparator ∉ o.Name.data ∧
    fieldSeparator ∉ o.GroupKind.Group.data ∧ fieldSeparator ∉ o.GroupKind.Kind.data

instance (o : ObjMetadata) : Decidable o.delimiterFree :=
  inferInstanceAs (Decidable (fieldSeparator ∉ o.Namespace.data ∧
    fieldSeparator ∉ o.Name.data ∧ fieldSeparator ∉ o.GroupKind.Group.data ∧
    fieldSeparator ∉ o.GroupKind.Kind.data))

/-- The number of `_`-separated fields of a string: one more than its delimiters. -/
def fieldCount (s : List Char) : Nat :=
  s.count fieldSeparator + 1

/-- The number of fields of an encoded string after un-escaping.  The escape is
defined on the name only, so only the name is un-escaped: a string with fewer than
three delimiters has the fields its delimiters cut; otherwise the namespace is the
text before the first delimiter, kind and group are the two last delimited fields,
and the text between them counts for as many fields as it has once un-escaped. -/
def logicalFieldCount (s : String) : Nat :=
  match splitFirst s.data with
  | none => 1
  | some (_, rest) =>
    match splitLast rest with
    | none => 2
    | some (rest2, _) =>
      match splitLast rest2 with
      | none => 3
      | some (nameEnc, _) => 3 + fieldCount (unescapeName nameEnc)

/-- Join four fields with the delimiter, the second one taken as it stands
(already escaped). -/
def joinFields (namespace_ nameEnc group kind : List Char) : String :=
  String.mk (namespace_ ++ fieldSeparator :: (nameEnc ++
    fieldSeparator :: (group ++ fieldSeparator :: kind)))

/-! ## An in-memory remote store

A concrete client on which the methods can be run: the remote store is a list of
inventory records and the inventory wrapper keeps the identities to store next to
the record it wraps. -/

/-- Modelled from the spec: the remote inventory record.  "Each opaque-record
exposes: namespace, name, a correlation label value, a revision token, and an
encoded-set payload"; the payload is the list of encoded identity strings. -/
structure InventoryRecord where
  namespace_ : String
  name : String
  label : String
  revision : Nat
  payload : List String
  deriving DecidableEq, Repr

/-- Two records address the same remote object: same namespace and name. -/
def InventoryRecord.sameAddress (a b : InventoryRecord) : Bool :=
  decide (a.namespace_ = b.namespace_) && decide (a.name = b.name)

/-- The inventory wrapper of the in-memory client: the wrapped record (nil when
the factory was given nil) and the identities passed to the last `Store`. -/
structure InventoryWrap where
  inv : Option InventoryRecord
  objMetas : List ObjMetadata
  deriving DecidableEq, Repr

/-- Decode a payload: every encoded string must parse. -/
def parsePayload : List String → List ObjMetadata × Option GoError
  | [] => ([], none)
  | s :: rest =>
    match ParseObjMetadata s with
    | .error err => ([], some err)
    | .ok o =>
      match parsePayload rest with
      | (_, some err) => ([], some err)
      | (os, none) => (o :: os, none)

/-- Modelled from the spec: the remote store and the inventory wrapper as an
in-memory client.  `Locate` returns the records "currently matching the
descriptor's namespace and correlation label"; `Create` fails with `AlreadyExists`,
`Replace` and `Delete` with `NotFound`; a replaced record gets a new revision
token; the wrapper decodes the payload on `Load`, keeps the set on `Store` and
encodes it into a copy of the record on `GetObject`; duplicates are sorted by
revision token. -/
def memClient (drs : DryRunStrategy) :
    ClusterInventoryClient InventoryRecord InventoryRecord Unit Unit Unit InventoryRecord
      (List InventoryRecord) InventoryWrap where
  builderInfos := fun cluster _ namespace_ labelSelector =>
    .ok (cluster.filter (fun r =>
      decide (r.namespace_ = namespace_) && decide ("inventory-id=" ++ r.label = labelSelector)))
  mapper := fun _ => .ok ()
  clientFunc := fun _ => .ok ()
  dryRunStrategy := drs
  InventoryFactoryFunc := fun inv => { inv := inv, objMetas := [] }
  BuildInfos := fun objs => .ok objs
  Load := fun wrapped =>
    match wrapped.inv with
    | none => ([], some (.errorf "inventory info is nil"))
    | some r => parsePayload r.payload
  Store := fun wrapped objs => .ok { wrapped with objMetas := objs }
  GetObject := fun wrapped =>
    match wrapped.inv with
    | none => .error (.errorf "inventory info is nil")
    | some r => .ok (some { r with payload := wrapped.objMetas.map ObjMetadata.String })
  UnstructuredToObjMeta := fun r =>
    { Namespace := r.namespace_, Name := r.name, GroupKind := { Group := "", Kind := "ConfigMap" } }
  InfoToUnstructured := fun info => info
  InfosToUnstructureds := fun infos => infos
  InfoToObjMeta := fun r =>
    .ok { Namespace := r.namespace_, Name := r.name,
          GroupKind := { Group := "", Kind := "ConfigMap" } }
  retrieveInventoryLabel := fun r => .ok r.label
  fixLegacyInventoryName := fun r => .ok r
  InventoryLabel := "inventory-id"
  sortUnstructureds := fun l => l.insertionSort (fun a b => a.revision ≤ b.revision)
  groupResource := fun _ => "configmaps"
  NewHelper := fun _ _ => ()
  infoClient := fun _ => ()
  infoMapping := fun _ => ()
  helperReplace := fun _ cluster info =>
    if cluster.any (fun r => r.sameAddress info) then
      (.ok { info with revision := info.revision + 1 },
        cluster.map (fun r =>
          if r.sameAddress info then { info with revision := info.revision + 1 } else r))
    else (.error (.errorf "NotFound"), cluster)
  helperCreate := fun _ cluster info =>
    if cluster.any (fun r => r.sameAddress info) then (.error (.errorf "AlreadyExists"), cluster)
    else (.ok info, cluster ++ [info])
  helperDelete := fun _ cluster info =>
    if cluster.any (fun r => r.sameAddress info) then
      (none, cluster.filter (fun r => !r.sameAddress info))
    else (some (.errorf "NotFound"), cluster)
  Refresh := fun _ _ _ => none

/-- The in-memory client whose wrapper cannot encode: `GetObject` always fails. -/
def memClientNoEncode (drs : DryRunStrategy) :
    ClusterInventoryClient InventoryRecord InventoryRecord Unit Unit Unit InventoryRecord
      (List InventoryRecord) InventoryWrap :=
  { memClient drs with GetObject := fun _ => .error (.errorf "cannot encode inventory") }

/-- The identity `objMeta1` of the test file. -/
def objMeta1 : ObjMetadata :=
  { Namespace := "default", Name := "dep", GroupKind := { Group := "apps", Kind := "Deployment" } }

/-- The identity `objMeta2` of the test file. -/
def objMeta2 : ObjMetadata :=
  { Namespace := "default", Name := "dep", GroupKind := { Group := "apps", Kind := "StatefulSet" } }

/-- The identity `objMeta3` of the test file. -/
def objMeta3 : ObjMetadata :=
  { Namespace := "default", Name := "pod-a", GroupKind := { Group := "", Kind := "Pod" } }

/-- A local inventory descriptor: namespace `default`, correlation label `id-1`. -/
def localDescriptor : InventoryRecord :=
  { namespace_ := "default", name := "inventory", label := "id-1", revision := 0, payload := [] }

/-- The remote record of `localDescriptor` holding the given identities. -/
def recordOf (objs : List ObjMetadata) : InventoryRecord :=
  { localDescriptor with revision := 7, payload := objs.map ObjMetadata.String }

/-- A duplicate remote record for `localDescriptor`: same namespace and label,
another name and an older revision token. -/
def duplicateOf (objs : List ObjMetadata) : InventoryRecord :=
  { localDescriptor with
    name := "inventory-2", revision := 3, payload := objs.map ObjMetadata.String }

/-! ## `pkg/object`: the hash of a set of identities -/

/-- The UTF-8 bytes of a character: a Go string is a sequence of bytes. -/
def utf8Bytes (c : Char) : List Nat :=
  if c.toNat < 128 then [c.toNat]
  else if c.toNat < 2048 then [192 + c.toNat / 64, 128 + c.toNat % 64]
  else if c.toNat < 65536 then
    [224 + c.toNat / 4096, 128 + c.toNat / 64 % 64, 128 + c.toNat % 64]
  else
    [240 + c.toNat / 262144, 128 + c.toNat / 4096 % 64, 128 + c.toNat / 64 % 64,
      128 + c.toNat % 64]

/-- The bytes of a string. -/
def stringBytes (s : String) : List Nat :=
  s.data.flatMap utf8Bytes

/-- Modelled from the spec: the sorting step of `Hash`, missing with
`objmetadata.go`.  "sorting the strings lexicographically": the strings, as byte
sequences, in ascending lexicographic order. -/
def sortStrings (strs : List (List Nat)) : List (List Nat) :=
  strs.insertionSort (fun a b => a ≤ b)

/-- Modelled from the spec: the checksum of `Hash`, missing with `objmetadata.go`.
"a standard 32-bit checksum (e.g. CRC-32)".  The fixtures of `TestHash` fix which
one: the empty list hashes to `811c9dc5`, the offset basis of 32-bit FNV-1a, and
FNV-1a gives `3715cd95` and `d69d726a` on the other fixtures (CRC-32 gives neither).
Each byte is xor-ed into the state, which is then multiplied by the FNV prime modulo
`2^32`. -/
def fnv32a (bytes : List Nat) : Nat :=
  bytes.foldl (fun h b => (h ^^^ b) * 16777619 % 2 ^ 32) 2166136261

/-- The lower-case hexadecimal digit of a number below 16. -/
def hexDigit (n : Nat) : Char :=
  if n < 10 then Char.ofNat (48 + n) else Char.ofNat (87 + n)

/-- Modelled from the spec: the "hex-encoded", "fixed-width token" of `Hash`: the
eight hexadecimal digits of a 32-bit number, most significant first. -/
def hex32 (n : Nat) : String :=
  String.mk ([7, 6, 5, 4, 3, 2, 1, 0].map (fun i => hexDigit (n / 16 ^ i % 16)))

/-- Modelled from the spec: `Hash` of the missing `objmetadata.go`.  "compute by
mapping every identity to its encoded string, sorting the strings
lexicographically, concatenating, and applying a standard 32-bit checksum [...] over
the concatenation, hex-encoded."  The test file reads the result as a string and
an error; the spec names no failure, so the model always succeeds. -/
def Hash (objs : List ObjMetadata) : Except GoError String :=
  .ok (hex32 (fnv32a (sortStrings (objs.map (fun o => stringBytes o.String))).flatten))

/-! ## Vocabulary of the statements about healing -/

/-- The remote call is a `Delete`. -/
def RemoteOp.isDelete {I : Type} : RemoteOp I → Bool
  | .delete _ => true
  | _ => false

/-- The in-memory client whose remote store refuses every `Delete`. -/
def memClientNoDelete (drs : DryRunStrategy) :
    ClusterInventoryClient InventoryRecord InventoryRecord Unit Unit Unit InventoryRecord
      (List InventoryRecord) InventoryWrap :=
  { memClient drs with helperDelete := fun _ cluster _ => (some (.errorf "Forbidden"), cluster) }

/-! ## The codec: auxiliary facts -/

theorem colonChar_ne_fieldSeparator : colonChar ≠ fieldSeparator := by decide

theorem splitFirst_append (a b : List Char) (ha : fieldSeparator ∉ a) :
    splitFirst (a ++ fieldSeparator :: b) = some (a, b) := by
  induction a with
  | nil => simp [splitFirst]
  | cons c cs ih =>
    have hc : c ≠ fieldSeparator := fun h => ha (by simp [h])
    have hcs : fieldSeparator ∉ cs := fun h => ha (by simp [h])
    simp [splitFirst, hc, ih hcs]

theorem splitFirst_eq_none (s : List Char) (hs : fieldSeparator ∉ s) : splitFirst s = none := by
  induction s with
  | nil => rfl
  | cons c cs ih =>
    have hc : c ≠ fieldSeparator := fun h => hs (by simp [h])
    have hcs : fieldSeparator ∉ cs := fun h => hs (by simp [h])
    simp [splitFirst, hc, ih hcs]

theorem splitFirst_eq_some (s a b : List Char) (h : splitFirst s = some (a, b)) :
    s = a ++ fieldSeparator :: b ∧ fieldSeparator ∉ a := by
  induction s generalizing a with
  | nil => simp [splitFirst] at h
  | cons c cs ih =>
    unfold splitFirst at h
    by_cases hc : c = fieldSeparator
    · simp only [hc, if_true, Option.some.injEq, Prod.mk.injEq] at h
      obtain ⟨rfl, rfl⟩ := h
      simp [hc]
    · simp only [hc, if_false] at h
      cases hsp : splitFirst cs with
      | none => simp [hsp] at h
      | some p =>
        obtain ⟨a', b'⟩ := p
        simp only [hsp, Option.some.injEq, Prod.mk.injEq] at h
        obtain ⟨rfl, rfl⟩ := h
        obtain ⟨h1, h2⟩ := ih a' hsp
        refine ⟨by simp [h1], ?_⟩
        intro hmem
        rcases List.mem_cons.1 hmem with h3 | h3
        · exact hc h3.symm
        · exact h2 h3

theorem splitLast_append (a b : List Char) (hb : fieldSeparator ∉ b) :
    splitLast (a ++ fieldSeparator :: b) = some (a, b) := by
  have hrev : (a ++ fieldSeparator :: b).reverse = b.reverse ++ fieldSeparator :: a.reverse := by
    simp
  have hb' : fieldSeparator ∉ b.reverse := by simpa using hb
  simp [splitLast, hrev, splitFirst_append _ _ hb']

theorem splitLast_eq_none (s : List Char) (hs : fieldSeparator ∉ s) : splitLast s = none := by
  have hs' : fieldSeparator ∉ s.reverse := by simpa using hs
  simp [splitLast, splitFirst_eq_none _ hs']

theorem splitLast_eq_some (s a b : List Char) (h : splitLast s = some (a, b)) :
    s = a ++ fieldSeparator :: b ∧ fieldSeparator ∉ b := by
  unfold splitLast at h
  cases hsp : splitFirst s.reverse with
  | none => simp [hsp] at h
  | some p =>
    obtain ⟨x, y⟩ := p
    simp only [hsp, Option.some.injEq, Prod.mk.injEq] at h
    obtain ⟨rfl, rfl⟩ := h
    obtain ⟨h1, h2⟩ := splitFirst_eq_some _ _ _ hsp
    refine ⟨?_, by simpa using h2⟩
    have := congrArg List.reverse h1
    simpa using this

theorem unescapeName_of_not_mem (n : List Char) (hn : fieldSeparator ∉ n) :
    unescapeName n = n := by
  induction n with
  | nil => rfl
  | cons c cs ih =>
    have hc : c ≠ fieldSeparator := fun h => hn (by simp [h])
    have hcs : fieldSeparator ∉ cs := fun h => hn (by simp [h])
    cases cs with
    | nil => rfl
    | cons d ds =>
      have := ih hcs
      simp [unescapeName, hc, this]

theorem unescapeName_escapeName (n : List Char) (hn : fieldSeparator ∉ n) :
    unescapeName (escapeName n) = n := by
  induction n with
  | nil => rfl
  | cons c cs ih =>
    have hc : c ≠ fieldSeparator := fun h => hn (by simp [h])
    have hcs : fieldSeparator ∉ cs := fun h => hn (by simp [h])
    by_cases hcol : c = colonChar
    · simp [escapeName, hcol, unescapeName, ih hcs]
    · simp only [escapeName, hcol, if_false]
      cases hes : escapeName cs with
      | nil =>
        have := ih hcs
        rw [hes] at this
        simp [unescapeName, ← this]
      | cons d ds =>
        have := ih hcs
        rw [hes] at this
        simp [unescapeName, hc, this]

/-- What `ParseObjMetadata` does on four joined fields whose first, third and fourth
are free of the delimiter. -/
theorem parse_joinFields (ns mid g k : List Char) (hns : fieldSeparator ∉ ns)
    (hg : fieldSeparator ∉ g) (hk : fieldSeparator ∉ k) :
    ParseObjMetadata (joinFields ns mid g k) =
      if fieldSeparator ∈ unescapeName mid then .error (.errorf "too many fields")
      else if (unescapeName mid).isEmpty then .error (.errorf "empty name for object")
      else .ok { Namespace := String.mk ns, Name := String.mk (unescapeName mid),
                 GroupKind := { Group := String.mk g, Kind := String.mk k } } := by
  have h2 : splitLast (mid ++ fieldSeparator :: (g ++ fieldSeparator :: k))
      = some (mid ++ fieldSeparator :: g, k) := by
    have := splitLast_append (mid ++ fieldSeparator :: g) k hk
    simpa using this
  simp only [ParseObjMetadata, joinFields, splitFirst_append _ _ hns, h2,
    splitLast_append _ _ hg]

/-- Every string that `ParseObjMetadata` accepts is four joined fields, the first,
third and fourth free of the delimiter, and the result is read off them. -/
theorem parse_ok_shape (s : String) (o : ObjMetadata) (h : ParseObjMetadata s = .ok o) :
    ∃ ns mid g k, s = joinFields ns mid g k ∧ fieldSeparator ∉ ns ∧ fieldSeparator ∉ g ∧
      fieldSeparator ∉ k ∧ fieldSeparator ∉ unescapeName mid ∧ unescapeName mid ≠ [] ∧
      o = { Namespace := String.mk ns, Name := String.mk (unescapeName mid),
            GroupKind := { Group := String.mk g, Kind := String.mk k } } := by
  unfold ParseObjMetadata at h
  cases h1 : splitFirst s.data with
  | none => simp [h1] at h
  | some p1 =>
    obtain ⟨ns, rest⟩ := p1
    simp only [h1] at h
    cases h2 : splitLast rest with
    | none => simp [h2] at h
    | some p2 =>
      obtain ⟨rest2, k⟩ := p2
      simp only [h2] at h
      cases h3 : splitLast rest2 with
      | none => simp [h3] at h
      | some p3 =>
        obtain ⟨mid, g⟩ := p3
        simp only [h3] at h
        by_cases hm : fieldSeparator ∈ unescapeName mid
        · simp [hm] at h
        · by_cases he : (unescapeName mid).isEmpty = true
          · simp [hm, he] at h
          · simp only [hm, he, if_false, Bool.false_eq_true, Except.ok.injEq] at h
            obtain ⟨e1, n1⟩ := splitFirst_eq_some _ _ _ h1
            obtain ⟨e2, n2⟩ := splitLast_eq_some _ _ _ h2
            obtain ⟨e3, n3⟩ := splitLast_eq_some _ _ _ h3
            refine ⟨ns, mid, g, k, ?_, n1, n3, n2, hm, ?_, h.symm⟩
            · cases s with
              | mk d =>
                simp only at e1
                simp [joinFields, e1, e2, e3]
            · intro hnil
              simp [hnil] at he

theorem count_of_splitFirst_none (s : List Char) (h : splitFirst s = none) :
    s.count fieldSeparator = 0 := by
  induction s with
  | nil => rfl
  | cons c cs ih =>
    unfold splitFirst at h
    by_cases hc : c = fieldSeparator
    · simp [hc] at h
    · simp only [hc, if_false] at h
      cases hsp : splitFirst cs with
      | none => rw [List.count_cons_of_ne (Ne.symm hc), ih hsp]
      | some p => simp [hsp] at h

theorem count_of_splitFirst_some (s a b : List Char) (h : splitFirst s = some (a, b)) :
    s.count fieldSeparator = b.count fieldSeparator + 1 := by
  obtain ⟨hs, ha⟩ := splitFirst_eq_some s a b h
  rw [hs, List.count_append, List.count_cons_self, List.count_eq_zero_of_not_mem ha]
  omega

theorem count_of_splitLast_none (s : List Char) (h : splitLast s = none) :
    s.count fieldSeparator = 0 := by
  unfold splitLast at h
  cases hsp : splitFirst s.reverse with
  | none =>
    have := count_of_splitFirst_none _ hsp
    rwa [List.count_reverse] at this
  | some p => simp [hsp] at h

theorem count_of_splitLast_some (s a b : List Char) (h : splitLast s = some (a, b)) :
    s.count fieldSeparator = a.count fieldSeparator + 1 := by
  obtain ⟨hs, hb⟩ := splitLast_eq_some s a b h
  rw [hs, List.count_append, List.count_cons_self, List.count_eq_zero_of_not_mem hb]

/-- The field count of four joined fields whose first, third and fourth are free of
the delimiter: three plus the fields of the un-escaped second one. -/
theorem logicalFieldCount_joinFields (ns mid g k : List Char) (hns : fieldSeparator ∉ ns)
    (hg : fieldSeparator ∉ g) (hk : fieldSeparator ∉ k) :
    logicalFieldCount (joinFields ns mid g k) = 3 + fieldCount (unescapeName mid) := by
  have h2 : splitLast (mid ++ fieldSeparator :: (g ++ fieldSeparator :: k))
      = some (mid ++ fieldSeparator :: g, k) := by
    have := splitLast_append (mid ++ fieldSeparator :: g) k hk
    simpa using this
  simp only [logicalFieldCount, joinFields, splitFirst_append _ _ hns, h2,
    splitLast_append _ _ hg]

/-- What the field count is: a string with fewer than four delimited fields has
that many; any other string is four joined fields, the first, third and fourth free
of the delimiter, and has three fields plus those of the un-escaped second one. -/
theorem logicalFieldCount_cases (s : String) :
    (fieldCount s.data < 4 ∧ logicalFieldCount s = fieldCount s.data) ∨
      ∃ ns mid g k, s = joinFields ns mid g k ∧ fieldSeparator ∉ ns ∧ fieldSeparator ∉ g ∧
        fieldSeparator ∉ k ∧ logicalFieldCount s = 3 + fieldCount (unescapeName mid) := by
  cases h1 : splitFirst s.data with
  | none =>
    left
    have := count_of_splitFirst_none _ h1
    constructor
    · simp [fieldCount, this]
    · simp [logicalFieldCount, h1, fieldCount, this]
  | some p1 =>
    obtain ⟨ns, rest⟩ := p1
    have c1 := count_of_splitFirst_some _ _ _ h1
    cases h2 : splitLast rest with
    | none =>
      left
      have := count_of_splitLast_none _ h2
      constructor
      · simp [fieldCount, c1, this]
      · simp [logicalFieldCount, h1, h2, fieldCount, c1, this]
    | some p2 =>
      obtain ⟨rest2, k⟩ := p2
      have c2 := count_of_splitLast_some _ _ _ h2
      cases h3 : splitLast rest2 with
      | none =>
        left
        have := count_of_splitLast_none _ h3
        constructor
        · simp [fieldCount, c1, c2, this]
        · simp [logicalFieldCount, h1, h2, h3, fieldCount, c1, c2, this]
      | some p3 =>
        obtain ⟨mid, g⟩ := p3
        right
        obtain ⟨e1, n1⟩ := splitFirst_eq_some _ _ _ h1
        obtain ⟨e2, n2⟩ := splitLast_eq_some _ _ _ h2
        obtain ⟨e3, n3⟩ := splitLast_eq_some _ _ _ h3
        refine ⟨ns, mid, g, k, ?_, n1, n3, n2, ?_⟩
        · cases s with
          | mk d =>
            simp only at e1
            simp [joinFields, e1, e2, e3]
        · simp only [logicalFieldCount, h1, h2, h3]

/-- Four joined fields contain at least three delimiters. -/
theorem fieldCount_joinFields_ge (ns mid g k : List Char) :
    4 ≤ fieldCount (joinFields ns mid g k).data := by
  simp only [fieldCount, joinFields, List.count_append, List.count_cons_self]
  omega

theorem string_mk_data (s : String) : String.mk s.data = s := rfl

theorem createObjMetadata_ok (namespace_ name : String) (gk : GroupKind) (o : ObjMetadata)
    (hc : CreateObjMetadata namespace_ name gk = .ok o) :
    o = { Namespace := namespace_, Name := name, GroupKind := gk } ∧ name.data ≠ [] := by
  unfold CreateObjMetadata at hc
  by_cases h1 : name.data.isEmpty = true
  · simp [h1] at hc
  · by_cases h2 : gk.Empty = true
    · simp [h1, h2] at hc
    · simp only [h1, h2, if_false, Bool.false_eq_true, Except.ok.injEq] at hc
      refine ⟨hc.symm, ?_⟩
      intro hnil
      simp [hnil] at h1

theorem objMetadata_string_eq_joinFields (o : ObjMetadata) :
    o.String = joinFields o.Namespace.data (escapeName o.Name.data) o.GroupKind.Group.data
      o.GroupKind.Kind.data := rfl

/-- Decoding the encoding of an identity with a non-empty name and no delimiter in
its fields gives the identity back. -/
theorem parse_string_of_delimiterFree (o : ObjMetadata) (hname : o.Name.data ≠ [])
    (hfree : o.delimiterFree) : ParseObjMetadata o.String = .ok o := by
  obtain ⟨hns, hn, hg, hk⟩ := hfree
  rw [objMetadata_string_eq_joinFields, parse_joinFields _ _ _ _ hns hg hk,
    unescapeName_escapeName _ hn]
  have he : o.Name.data.isEmpty = false := by
    cases hd : o.Name.data with
    | nil => exact absurd hd hname
    | cons c cs => rfl
  simp only [hn, he, if_false, Bool.false_eq_true, string_mk_data]

/-! ## The codec: round trip, rejection, injectivity -/

/-- C1, as stated, fails: `CreateObjMetadata` accepts the identity with name
`test_name`, and `ParseObjMetadata` rejects its `String()` encoding
`test-namespace_test_name_apps_Deployment` (the `_` of the name reads as a fifth
field). -/
theorem roundTrip_fails_with_delimiter_in_name :
    CreateObjMetadata "test-namespace" "test_name" ⟨"apps", "Deployment"⟩ =
        .ok ⟨"test-namespace", "test_name", ⟨"apps", "Deployment"⟩⟩ ∧
      ParseObjMetadata
          (ObjMetadata.String ⟨"test-namespace", "test_name", ⟨"apps", "Deployment"⟩⟩) =
        .error (.errorf "too many fields") :=
  ⟨rfl, rfl⟩

/-- C1 (amended): for every identity that `CreateObjMetadata` accepts, the created
`ObjMetadata` carries the four given values, and `ParseObjMetadata` applied to its
`String()` encoding returns that same `ObjMetadata` exactly when none of the four
fields contains the delimiter `_`.  The character `:` is free to occur in the name
any number of times and at any place. -/
theorem parse_string_roundTrip (namespace_ name : String) (gk : GroupKind) (o : ObjMetadata)
    (hc : CreateObjMetadata namespace_ name gk = .ok o) :
    o = { Namespace := namespace_, Name := name, GroupKind := gk } ∧
      (ParseObjMetadata o.String = .ok o ↔ o.delimiterFree) := by
  obtain ⟨ho, hname⟩ := createObjMetadata_ok _ _ _ _ hc
  refine ⟨ho, ?_, ?_⟩
  · intro hp
    obtain ⟨ns, mid, g, k, -, hns, hg, hk, hmid, -, hshape⟩ := parse_ok_shape _ _ hp
    rw [hshape]
    exact ⟨hns, hmid, hg, hk⟩
  · intro hfree
    apply parse_string_of_delimiterFree _ _ hfree
    rw [ho]
    exact hname

/-- C1 (amended), on the fixtures of the test file: a name with two `:`, a name
starting with `:`, a name ending with `:`, and `objMeta3` (no `:`, empty group) are
encoded as in the test file and decode back. -/
theorem parse_string_roundTrip_witness :
    ObjMetadata.String
        ⟨"test-namespace", "system::kube-scheduler", ⟨"rbac.authorization.k8s.io", "Role"⟩⟩ =
      "test-namespace_system____kube-scheduler_rbac.authorization.k8s.io_Role" ∧
    ParseObjMetadata (ObjMetadata.String
        ⟨"test-namespace", "system::kube-scheduler", ⟨"rbac.authorization.k8s.io", "Role"⟩⟩) =
      .ok ⟨"test-namespace", "system::kube-scheduler", ⟨"rbac.authorization.k8s.io", "Role"⟩⟩ ∧
    ParseObjMetadata (ObjMetadata.String
        ⟨"test-namespace", ":leader-locking-kube-scheduler",
          ⟨"rbac.authorization.k8s.io", "ClusterRole"⟩⟩) =
      .ok ⟨"test-namespace", ":leader-locking-kube-scheduler",
          ⟨"rbac.authorization.k8s.io", "ClusterRole"⟩⟩ ∧
    ParseObjMetadata (ObjMetadata.String
        ⟨"test-namespace", "leader-locking-kube-scheduler:",
          ⟨"rbac.authorization.k8s.io", "RoleBinding"⟩⟩) =
      .ok ⟨"test-namespace", "leader-locking-kube-scheduler:",
          ⟨"rbac.authorization.k8s.io", "RoleBinding"⟩⟩ ∧
    ParseObjMetadata objMeta3.String = .ok objMeta3 :=
  ⟨rfl,
   (parse_string_roundTrip "test-namespace" "system::kube-scheduler"
      ⟨"rbac.authorization.k8s.io", "Role"⟩ _ rfl).2.2 (by decide),
   (parse_string_roundTrip "test-namespace" ":leader-locking-kube-scheduler"
      ⟨"rbac.authorization.k8s.io", "ClusterRole"⟩ _ rfl).2.2 (by decide),
   (parse_string_roundTrip "test-namespace" "leader-locking-kube-scheduler:"
      ⟨"rbac.authorization.k8s.io", "RoleBinding"⟩ _ rfl).2.2 (by decide),
   (parse_string_roundTrip "default" "pod-a" ⟨"", "Pod"⟩ objMeta3 rfl).2.2 (by decide)⟩

/-- C8: `ParseObjMetadata` returns an error for every string that, after
un-escaping, has fewer than 4 or more than 4 `_`-separated fields, and for every
string whose resulting name is empty; it never truncates: an accepted string is
exactly the namespace of the result, a second field, and the group and kind of the
result, joined by `_`, and the name of the result is that second field un-escaped.
The field count is the one of `logicalFieldCount`, which the second part pins: the
fields the delimiters cut when they are fewer than four, and otherwise three plus
the fields of the un-escaped text between the first and the second-to-last
delimiter. -/
theorem parse_rejects_malformed :
    (∀ s : String, logicalFieldCount s < 4 ∨ 4 < logicalFieldCount s →
      ∃ e, ParseObjMetadata s = .error e) ∧
    (∀ s : String,
      (fieldCount s.data < 4 ∧ logicalFieldCount s = fieldCount s.data) ∨
        ∃ ns mid g k, s = joinFields ns mid g k ∧ fieldSeparator ∉ ns ∧
          fieldSeparator ∉ g ∧ fieldSeparator ∉ k ∧
          logicalFieldCount s = 3 + fieldCount (unescapeName mid)) ∧
    (∀ ns mid g k : List Char,
      fieldSeparator ∉ ns → fieldSeparator ∉ g → fieldSeparator ∉ k →
      unescapeName mid = [] →
      ∃ e, ParseObjMetadata (joinFields ns mid g k) = .error e) ∧
    (∀ (s : String) (o : ObjMetadata), ParseObjMetadata s = .ok o →
      ∃ mid, s = joinFields o.Namespace.data mid o.GroupKind.Group.data o.GroupKind.Kind.data ∧
        o.Name.data = unescapeName mid) := by
  refine ⟨?_, logicalFieldCount_cases, ?_, ?_⟩
  · intro s hs
    cases hp : ParseObjMetadata s with
    | error e => exact ⟨e, rfl⟩
    | ok o =>
      obtain ⟨ns, mid, g, k, hsj, hns, hg, hk, hmid, -, -⟩ := parse_ok_shape _ _ hp
      have hc := logicalFieldCount_joinFields ns mid g k hns hg hk
      have hz : (unescapeName mid).count fieldSeparator = 0 :=
        List.count_eq_zero_of_not_mem hmid
      rw [hsj, hc, fieldCount, hz] at hs
      omega
  · intro ns mid g k hns hg hk hempty
    rw [parse_joinFields _ _ _ _ hns hg hk]
    refine ⟨.errorf "empty name for object", ?_⟩
    simp [hempty]
  · intro s o hp
    obtain ⟨ns, mid, g, k, hsj, -, -, -, -, -, ho⟩ := parse_ok_shape _ _ hp
    refine ⟨mid, ?_, ?_⟩
    · rw [hsj, ho]
    · rw [ho]

/-- C8, on the fixtures of the test file: `_test-name_apps` has 3 fields, the string
without separator 1, `test-namespace_test-name_apps_foo_Deployment` 5, and all are
rejected, as is a string with an empty name; the encoding of `objMeta3` (empty
group) and the fixture with a `:` at the start of the name have 4 fields. -/
theorem parse_rejects_malformed_witness :
    logicalFieldCount "_test-name_apps" = 3 ∧
    (∃ e, ParseObjMetadata "_test-name_apps" = .error e) ∧
    logicalFieldCount "test-namespacetest-nametest-grouptest-kind" = 1 ∧
    (∃ e, ParseObjMetadata "test-namespacetest-nametest-grouptest-kind" = .error e) ∧
    logicalFieldCount "test-namespace_test-name_apps_foo_Deployment" = 5 ∧
    (∃ e, ParseObjMetadata "test-namespace_test-name_apps_foo_Deployment" = .error e) ∧
    (∃ e, ParseObjMetadata "test-namespace__apps_Deployment" = .error e) ∧
    logicalFieldCount "default_pod-a__Pod" = 4 ∧
    logicalFieldCount
      "test-namespace___leader-locking-kube-scheduler_rbac.authorization.k8s.io_ClusterRole" =
      4 :=
  ⟨rfl,
   parse_rejects_malformed.1 "_test-name_apps" (Or.inl (by decide)),
   rfl,
   parse_rejects_malformed.1 "test-namespacetest-nametest-grouptest-kind"
     (Or.inl (by decide)),
   rfl,
   parse_rejects_malformed.1 "test-namespace_test-name_apps_foo_Deployment"
     (Or.inr (by decide)),
   parse_rejects_malformed.2.2.1 "test-namespace".data [] "apps".data "Deployment".data
     (by decide) (by decide) (by decide) rfl,
   rfl, rfl⟩

/-- C9: `CreateObjMetadata` returns an error for every input whose name is empty and
for every input whose group and kind are both empty, whatever the other fields. -/
theorem createObjMetadata_rejects (namespace_ name : String) (gk : GroupKind)
    (h : name = "" ∨ (gk.Group = "" ∧ gk.Kind = "")) :
    ∃ e, CreateObjMetadata namespace_ name gk = .error e := by
  unfold CreateObjMetadata
  rcases h with h | ⟨h1, h2⟩
  · exact ⟨_, if_pos (by rw [h]; rfl)⟩
  · by_cases hn : name.data.isEmpty = true
    · exact ⟨_, if_pos hn⟩
    · refine ⟨.errorf "GroupKind is empty", ?_⟩
      rw [if_neg hn, if_pos]
      simp [GroupKind.Empty, h1, h2]

/-- C9, on the two failing cases of `TestCreateObjMetadata`. -/
theorem createObjMetadata_rejects_witness :
    (∃ e, CreateObjMetadata "test-namespace " "" ⟨"apps", "ReplicaSet"⟩ =
      .error e) ∧
    (∃ e, CreateObjMetadata "test-namespace" "test-name" ⟨"", ""⟩ =
      .error e) :=
  ⟨createObjMetadata_rejects _ _ _ (Or.inl rfl),
   createObjMetadata_rejects _ _ _ (Or.inr ⟨rfl, rfl⟩)⟩

/-- C10, as stated, fails: two different identities, both accepted by
`CreateObjMetadata`, have the same encoding `team_a_web_apps_Deployment`. -/
theorem string_not_injective :
    CreateObjMetadata "team_a" "web" ⟨"apps", "Deployment"⟩ =
        .ok ⟨"team_a", "web", ⟨"apps", "Deployment"⟩⟩ ∧
      CreateObjMetadata "team" "a_web" ⟨"apps", "Deployment"⟩ =
        .ok ⟨"team", "a_web", ⟨"apps", "Deployment"⟩⟩ ∧
      ObjMetadata.String ⟨"team_a", "web", ⟨"apps", "Deployment"⟩⟩ =
        ObjMetadata.String ⟨"team", "a_web", ⟨"apps", "Deployment"⟩⟩ ∧
      (⟨"team_a", "web", ⟨"apps", "Deployment"⟩⟩ : ObjMetadata) ≠
        ⟨"team", "a_web", ⟨"apps", "Deployment"⟩⟩ :=
  ⟨rfl, rfl, rfl, by decide⟩

/-- C10 (amended): for any two identities accepted by `CreateObjMetadata` none of
whose fields contains the delimiter `_`, equal `String()` encodings imply that the
identities are equal in all four fields. -/
theorem string_injective (x y : ObjMetadata)
    (hx : CreateObjMetadata x.Namespace x.Name x.GroupKind = .ok x)
    (hy : CreateObjMetadata y.Namespace y.Name y.GroupKind = .ok y)
    (hfx : x.delimiterFree) (hfy : y.delimiterFree) (h : x.String = y.String) : x = y := by
  have px := parse_string_of_delimiterFree x (createObjMetadata_ok _ _ _ _ hx).2 hfx
  have py := parse_string_of_delimiterFree y (createObjMetadata_ok _ _ _ _ hy).2 hfy
  rw [h, py] at px
  exact (Except.ok.inj px).symm

/-- C10 (amended), on `objMeta1` of the test file and an identity built from the
same four values. -/
theorem string_injective_witness :
    objMeta1.String = "default_dep_apps_Deployment" ∧
      objMeta1 = ⟨"default", "dep", ⟨"apps", "Deployment"⟩⟩ :=
  ⟨rfl, string_injective objMeta1 _ rfl rfl (by decide) (by decide) rfl⟩

/-! ## The inventory client -/

section ClientFacts

variable {U I M C H R S W : Type}

/-- C7: with a nil local inventory descriptor, `Merge`, `Replace` and
`GetClusterObjs` each return the error of `getClusterInventoryInfo` at once: the
world is returned as it was, so no remote call (locate, create, replace, delete)
has been issued. -/
theorem nil_descriptor_fails_without_remote_call
    (cic : ClusterInventoryClient U I M C H R S W) (objs : List ObjMetadata) (w : World S I) :
    Merge cic none objs w =
        (([], some (.errorf "retrieving cluster inventory object with nil local inventory")), w) ∧
      Replace cic none objs w =
        (some (.errorf "retrieving cluster inventory object with nil local inventory"), w) ∧
      GetClusterObjs cic none w =
        (([], some (.errorf "retrieving cluster inventory object with nil local inventory")), w) :=
  ⟨rfl, rfl, rfl⟩

/-- C3: when locating finds no record and the creation succeeds (dry-run `None`; the
wrapper stores the desired set and yields an object, for which the remote `Create`
succeeds), `Merge` returns an empty prune set and no error, and after locating it
issues exactly one remote call: the `Create` of the object obtained from the wrapper
of the local descriptor after `Store(objs)`, the desired set itself. -/
theorem merge_bootstrap (cic : ClusterInventoryClient U I M C H R S W) (localInv : Option U)
    (objs : List ObjMetadata) (w w1 : World S I) (wrapped : W) (obj obj1 : U) (info : I)
    (helper : H) (created : R) (cluster1 : S)
    (hdry : cic.dryRunStrategy = .DryRunNone)
    (hlocate : getClusterInventoryInfo cic localInv w = (.ok none, w1))
    (hstore : cic.Store (cic.InventoryFactoryFunc localInv) objs = .ok wrapped)
    (hget : cic.GetObject wrapped = .ok (some obj))
    (hfix : cic.fixLegacyInventoryName obj = .ok obj1)
    (hinfo : toInfo cic obj1 = .ok info)
    (hhelper : helperFromInfo cic info = .ok helper)
    (hcreate : cic.helperCreate helper w1.cluster info = (.ok created, cluster1))
    (hrefresh : cic.Refresh info created true = none) :
    Merge cic localInv objs w =
      (([], none), { cluster := cluster1, trace := w1.trace ++ [.create info] }) := by
  simp [Merge, hlocate, hstore, hget, createInventoryObj, hdry,
    DryRunStrategy.ClientOrServerDryRun, hfix, hinfo, hhelper, hcreate, hrefresh, World.record]

/-- C3, on the in-memory store: no record exists, the desired set is
`{objMeta2, objMeta3}`; `Merge` creates one record holding exactly the two encoded
identities and returns an empty prune set. -/
theorem merge_bootstrap_witness :
    Merge (memClient .DryRunNone) (some localDescriptor) [objMeta2, objMeta3]
        { cluster := [], trace := [] } =
      (([], none),
        { cluster := [{ localDescriptor with
              payload := ["default_dep_apps_StatefulSet", "default_pod-a__Pod"] }],
          trace := [.infos "configmaps" "default" "inventory-id=id-1",
            .create { localDescriptor with
              payload := ["default_dep_apps_StatefulSet", "default_pod-a__Pod"] }] }) :=
  merge_bootstrap (memClient .DryRunNone) (some localDescriptor) [objMeta2, objMeta3]
    { cluster := [], trace := [] }
    { cluster := [], trace := [.infos "configmaps" "default" "inventory-id=id-1"] }
    { inv := some localDescriptor, objMetas := [objMeta2, objMeta3] }
    { localDescriptor with payload := ["default_dep_apps_StatefulSet", "default_pod-a__Pod"] }
    { localDescriptor with payload := ["default_dep_apps_StatefulSet", "default_pod-a__Pod"] }
    { localDescriptor with payload := ["default_dep_apps_StatefulSet", "default_pod-a__Pod"] }
    () { localDescriptor with payload := ["default_dep_apps_StatefulSet", "default_pod-a__Pod"] }
    [{ localDescriptor with payload := ["default_dep_apps_StatefulSet", "default_pod-a__Pod"] }]
    rfl rfl rfl rfl rfl rfl rfl rfl rfl

/-- C2: when the located record is `clusterInv`, its decoded set `current` is not
set-equal to the desired set, and the write succeeds (dry-run `None`; the wrapper
stores the set and yields an object, for which the remote `Replace` succeeds),
`Merge` returns exactly `SetDiff(current, desired)` with no error, and its one
remote call after reading is the `Replace` of the object obtained from the wrapper
of `clusterInv` after `Store(Union(current, desired))`. -/
theorem merge_existing (cic : ClusterInventoryClient U I M C H R S W) (localInv : Option U)
    (objs current : List ObjMetadata) (w w1 w2 : World S I) (clusterInv : U) (wrapped : W)
    (obj : U) (info : I) (replaced : R) (cluster1 : S)
    (hdry : cic.dryRunStrategy = .DryRunNone)
    (hlocate : getClusterInventoryInfo cic localInv w = (.ok (some clusterInv), w1))
    (hload : GetClusterObjs cic localInv w1 = ((current, none), w2))
    (hneq : SetEquals objs current = false)
    (hstore : cic.Store (cic.InventoryFactoryFunc (some clusterInv)) (Union current objs) =
      .ok wrapped)
    (hget : cic.GetObject wrapped = .ok (some obj))
    (hinfo : toInfo cic obj = .ok info)
    (hreplace : cic.helperReplace (cic.NewHelper (cic.infoClient info) (cic.infoMapping info))
      w2.cluster info = (.ok replaced, cluster1))
    (hrefresh : cic.Refresh info replaced true = none) :
    Merge cic localInv objs w =
      ((SetDiff current objs, none),
        { cluster := cluster1, trace := w2.trace ++ [.replace info] }) := by
  simp [Merge, hlocate, hload, hneq, hstore, hget, applyInventoryObj, hdry,
    DryRunStrategy.ClientOrServerDryRun, hinfo, hreplace, hrefresh, World.record]

/-- C2, on the in-memory store: the record encodes `{objMeta1, objMeta2}`, the
desired set is `{objMeta2, objMeta3}`; `Merge` returns the prune set `{objMeta1}`
and replaces the record by one encoding `{objMeta1, objMeta2, objMeta3}`. -/
theorem merge_existing_witness :
    Merge (memClient .DryRunNone) (some localDescriptor) [objMeta2, objMeta3]
        { cluster := [recordOf [objMeta1, objMeta2]], trace := [] } =
      (([objMeta1], none),
        { cluster := [{ recordOf [objMeta1, objMeta2, objMeta3] with revision := 8 }],
          trace := [.infos "configmaps" "default" "inventory-id=id-1",
            .infos "configmaps" "default" "inventory-id=id-1",
            .replace (recordOf [objMeta1, objMeta2, objMeta3])] }) :=
  merge_existing (memClient .DryRunNone) (some localDescriptor) [objMeta2, objMeta3]
    [objMeta1, objMeta2]
    { cluster := [recordOf [objMeta1, objMeta2]], trace := [] }
    { cluster := [recordOf [objMeta1, objMeta2]],
      trace := [.infos "configmaps" "default" "inventory-id=id-1"] }
    { cluster := [recordOf [objMeta1, objMeta2]],
      trace := [.infos "configmaps" "default" "inventory-id=id-1",
        .infos "configmaps" "default" "inventory-id=id-1"] }
    (recordOf [objMeta1, objMeta2])
    { inv := some (recordOf [objMeta1, objMeta2]), objMetas := [objMeta1, objMeta2, objMeta3] }
    (recordOf [objMeta1, objMeta2, objMeta3]) (recordOf [objMeta1, objMeta2, objMeta3])
    { recordOf [objMeta1, objMeta2, objMeta3] with revision := 8 }
    [{ recordOf [objMeta1, objMeta2, objMeta3] with revision := 8 }]
    rfl rfl rfl rfl rfl rfl rfl rfl rfl

/-- C4: when the decoded current set is not set-equal to the desired set and the
write succeeds (dry-run `None`; the wrapper stores the set and yields an object, for
which the remote `Replace` succeeds), `Replace` returns no error and its one remote
call after reading is the `Replace` of the object obtained from the wrapper of the
located record after `Store(objs)`: the desired set itself, no union with the
current set. -/
theorem replace_existing (cic : ClusterInventoryClient U I M C H R S W) (localInv : Option U)
    (objs current : List ObjMetadata) (w w1 w2 : World S I) (clusterInv : Option U)
    (wrapped : W) (obj : U) (info : I) (replaced : R) (cluster1 : S)
    (hdry : cic.dryRunStrategy = .DryRunNone)
    (hload : GetClusterObjs cic localInv w = ((current, none), w1))
    (hneq : SetEquals objs current = false)
    (hlocate : getClusterInventoryInfo cic localInv w1 = (.ok clusterInv, w2))
    (hstore : cic.Store (cic.InventoryFactoryFunc clusterInv) objs = .ok wrapped)
    (hget : cic.GetObject wrapped = .ok (some obj))
    (hinfo : toInfo cic obj = .ok info)
    (hreplace : cic.helperReplace (cic.NewHelper (cic.infoClient info) (cic.infoMapping info))
      w2.cluster info = (.ok replaced, cluster1))
    (hrefresh : cic.Refresh info replaced true = none) :
    Replace cic localInv objs w =
      (none, { cluster := cluster1, trace := w2.trace ++ [.replace info] }) := by
  simp [Replace, hlocate, hload, hneq, hstore, hget, applyInventoryObj, hdry,
    DryRunStrategy.ClientOrServerDryRun, hinfo, hreplace, hrefresh, World.record]

/-- C4, on the in-memory store: the record encodes `{objMeta1, objMeta2}`, the
desired set is `{objMeta2, objMeta3}`; `Replace` writes a record encoding
`{objMeta2, objMeta3}`, so `objMeta1` is no longer stored. -/
theorem replace_existing_witness :
    (Replace (memClient .DryRunNone) (some localDescriptor) [objMeta2, objMeta3]
        { cluster := [recordOf [objMeta1, objMeta2]], trace := [] } =
      (none,
        { cluster := [{ recordOf [objMeta2, objMeta3] with revision := 8 }],
          trace := [.infos "configmaps" "default" "inventory-id=id-1",
            .infos "configmaps" "default" "inventory-id=id-1",
            .replace (recordOf [objMeta2, objMeta3])] })) ∧
      objMeta1.String ∉ (recordOf [objMeta2, objMeta3]).payload :=
  ⟨replace_existing (memClient .DryRunNone) (some localDescriptor) [objMeta2, objMeta3]
    [objMeta1, objMeta2]
    { cluster := [recordOf [objMeta1, objMeta2]], trace := [] }
    { cluster := [recordOf [objMeta1, objMeta2]],
      trace := [.infos "configmaps" "default" "inventory-id=id-1"] }
    { cluster := [recordOf [objMeta1, objMeta2]],
      trace := [.infos "configmaps" "default" "inventory-id=id-1",
        .infos "configmaps" "default" "inventory-id=id-1"] }
    (some (recordOf [objMeta1, objMeta2]))
    { inv := some (recordOf [objMeta1, objMeta2]), objMetas := [objMeta2, objMeta3] }
    (recordOf [objMeta2, objMeta3]) (recordOf [objMeta2, objMeta3])
    { recordOf [objMeta2, objMeta3] with revision := 8 }
    [{ recordOf [objMeta2, objMeta3] with revision := 8 }]
    rfl rfl rfl rfl rfl rfl rfl rfl rfl, by decide⟩

/-! ### Dry run -/

theorem clientOrServerDryRun_of (drs : DryRunStrategy)
    (h : drs = .DryRunClient ∨ drs = .DryRunServer) : drs.ClientOrServerDryRun = true := by
  rcases h with h | h <;> rw [h] <;> rfl

theorem applyInventoryObj_dry (cic : ClusterInventoryClient U I M C H R S W)
    (hdry : cic.dryRunStrategy.ClientOrServerDryRun = true) (obj : Option U) (w : World S I) :
    applyInventoryObj cic obj w = (none, w) := by
  simp [applyInventoryObj, hdry]

theorem createInventoryObj_dry (cic : ClusterInventoryClient U I M C H R S W)
    (hdry : cic.dryRunStrategy.ClientOrServerDryRun = true) (obj : Option U) (w : World S I) :
    createInventoryObj cic obj w = (none, w) := by
  simp [createInventoryObj, hdry]

theorem deleteInventoryObj_dry (cic : ClusterInventoryClient U I M C H R S W)
    (hdry : cic.dryRunStrategy.ClientOrServerDryRun = true) (obj : Option U) (w : World S I) :
    DeleteInventoryObj cic obj w = (none, w) := by
  simp [DeleteInventoryObj, hdry]

theorem mergeDeleteLoop_dry (cic : ClusterInventoryClient U I M C H R S W)
    (hdry : cic.dryRunStrategy.ClientOrServerDryRun = true) (others : List U) (w : World S I) :
    mergeDeleteLoop cic others w = (none, w) := by
  induction others with
  | nil => rfl
  | cons merge rest ih => simp [mergeDeleteLoop, deleteInventoryObj_dry cic hdry, ih]

/-- In dry-run mode `mergeClusterInventory` returns the world it was given. -/
theorem mergeClusterInventory_dry_world (cic : ClusterInventoryClient U I M C H R S W)
    (hdry : cic.dryRunStrategy.ClientOrServerDryRun = true) (invObjs : List U) (w : World S I) :
    (mergeClusterInventory cic invObjs w).2 = w := by
  simp only [mergeClusterInventory, applyInventoryObj_dry cic hdry,
    mergeDeleteLoop_dry cic hdry]
  repeat' split
  all_goals rfl

theorem mutations_record_infos (w : World S I) (a b c : String) (cluster : S) :
    (w.record (.infos a b c) cluster).mutations = w.mutations := by
  simp [World.record, World.mutations, RemoteOp.isMutation]

/-- In dry-run mode `getClusterInventoryInfo` leaves the store and the list of
mutating calls as they were. -/
theorem getClusterInventoryInfo_dry_world (cic : ClusterInventoryClient U I M C H R S W)
    (hdry : cic.dryRunStrategy.ClientOrServerDryRun = true) (localInv : Option U)
    (w : World S I) :
    (getClusterInventoryInfo cic localInv w).2.cluster = w.cluster ∧
      (getClusterInventoryInfo cic localInv w).2.mutations = w.mutations := by
  simp only [getClusterInventoryInfo]
  repeat' split
  all_goals first
    | exact ⟨rfl, rfl⟩
    | exact ⟨rfl, mutations_record_infos _ _ _ _ _⟩
    | (rw [mergeClusterInventory_dry_world cic hdry]
       exact ⟨rfl, mutations_record_infos _ _ _ _ _⟩)

theorem getClusterObjs_dry_world (cic : ClusterInventoryClient U I M C H R S W)
    (hdry : cic.dryRunStrategy.ClientOrServerDryRun = true) (localInv : Option U)
    (w : World S I) :
    (GetClusterObjs cic localInv w).2.cluster = w.cluster ∧
      (GetClusterObjs cic localInv w).2.mutations = w.mutations := by
  have h := getClusterInventoryInfo_dry_world cic hdry localInv w
  unfold GetClusterObjs
  split <;> rename_i heq <;> rw [heq] at h <;> exact h

theorem merge_dry_world (cic : ClusterInventoryClient U I M C H R S W)
    (hdry : cic.dryRunStrategy.ClientOrServerDryRun = true) (localInv : Option U)
    (objs : List ObjMetadata) (w : World S I) :
    (Merge cic localInv objs w).2.cluster = w.cluster ∧
      (Merge cic localInv objs w).2.mutations = w.mutations := by
  have h := getClusterInventoryInfo_dry_world cic hdry localInv w
  simp only [Merge, createInventoryObj_dry cic hdry, hdry, Bool.not_true, Bool.false_eq_true,
    if_false]
  split <;> rename_i heq <;> rw [heq] at h
  · exact h
  · repeat' split
    all_goals exact h
  · rename_i w1
    have h2 := getClusterObjs_dry_world cic hdry localInv w1
    split <;> rename_i heq2 <;> rw [heq2] at h2
    · exact ⟨h2.1.trans h.1, h2.2.trans h.2⟩
    · repeat' split
      all_goals exact ⟨h2.1.trans h.1, h2.2.trans h.2⟩

theorem replace_dry_world (cic : ClusterInventoryClient U I M C H R S W)
    (hdry : cic.dryRunStrategy.ClientOrServerDryRun = true) (localInv : Option U)
    (objs : List ObjMetadata) (w : World S I) :
    (Replace cic localInv objs w).2.cluster = w.cluster ∧
      (Replace cic localInv objs w).2.mutations = w.mutations := by
  have h := getClusterObjs_dry_world cic hdry localInv w
  simp only [Replace, hdry, Bool.not_true, Bool.false_eq_true, if_false]
  split <;> rename_i heq <;> rw [heq] at h
  · exact h
  · rename_i w1
    split
    · exact h
    · have h2 := getClusterInventoryInfo_dry_world cic hdry localInv w1
      split <;> rename_i heq2 <;> rw [heq2] at h2
      · exact ⟨h2.1.trans h.1, h2.2.trans h.2⟩
      · repeat' split
        all_goals exact ⟨h2.1.trans h.1, h2.2.trans h.2⟩

theorem runCall_dry_world (cic : ClusterInventoryClient U I M C H R S W)
    (hdry : cic.dryRunStrategy.ClientOrServerDryRun = true) (call : Call U) (w : World S I) :
    (runCall cic w call).cluster = w.cluster ∧ (runCall cic w call).mutations = w.mutations := by
  cases call with
  | merge localInv objs => exact merge_dry_world cic hdry localInv objs w
  | replace localInv objs => exact replace_dry_world cic hdry localInv objs w
  | getClusterObjs localInv => exact getClusterObjs_dry_world cic hdry localInv w
  | mergeClusterInventory invObjs =>
    simp only [runCall, mergeClusterInventory_dry_world cic hdry, and_self]
  | deleteInventoryObj obj =>
    simp only [runCall, deleteInventoryObj_dry cic hdry, and_self]

theorem runCalls_dry_world (cic : ClusterInventoryClient U I M C H R S W)
    (hdry : cic.dryRunStrategy.ClientOrServerDryRun = true) (calls : List (Call U))
    (w : World S I) :
    (runCalls cic calls w).cluster = w.cluster ∧
      (runCalls cic calls w).mutations = w.mutations := by
  induction calls generalizing w with
  | nil => exact ⟨rfl, rfl⟩
  | cons call rest ih =>
    have h1 := runCall_dry_world cic hdry call w
    have h2 := ih (runCall cic w call)
    simp only [runCalls, List.foldl_cons] at h2 ⊢
    exact ⟨h2.1.trans h1.1, h2.2.trans h1.2⟩

/-- C5: whenever the dry-run strategy is `Client` or `Server`, `applyInventoryObj`,
`createInventoryObj` and `DeleteInventoryObj` return nil and give back the world
untouched (no remote call), for every argument, a nil object included; and after
any sequence of `Merge`, `Replace`, `GetClusterObjs`, `mergeClusterInventory` and
`DeleteInventoryObj` calls the store state and the list of issued create, replace
and delete calls are what they were before. -/
theorem dry_run_gating (cic : ClusterInventoryClient U I M C H R S W)
    (hdry : cic.dryRunStrategy = .DryRunClient ∨ cic.dryRunStrategy = .DryRunServer) :
    (∀ (obj : Option U) (w : World S I), applyInventoryObj cic obj w = (none, w)) ∧
    (∀ (obj : Option U) (w : World S I), createInventoryObj cic obj w = (none, w)) ∧
    (∀ (obj : Option U) (w : World S I), DeleteInventoryObj cic obj w = (none, w)) ∧
    (∀ (calls : List (Call U)) (w : World S I),
      (runCalls cic calls w).cluster = w.cluster ∧
        (runCalls cic calls w).mutations = w.mutations) :=
  have h := clientOrServerDryRun_of _ hdry
  ⟨applyInventoryObj_dry cic h, createInventoryObj_dry cic h, deleteInventoryObj_dry cic h,
    runCalls_dry_world cic h⟩

/-- C5, on the in-memory store with two duplicate records: in dry-run mode the three
mutating operations do nothing, on nil as on a record, and a `Merge`, a `Replace`,
a heal and a delete in a row leave the two records in place and issue no create,
replace or delete. -/
theorem dry_run_gating_witness :
    applyInventoryObj (memClient .DryRunClient) none
        { cluster := [recordOf [objMeta1]], trace := [] } =
      (none, { cluster := [recordOf [objMeta1]], trace := [] }) ∧
    createInventoryObj (memClient .DryRunServer) (some localDescriptor)
        { cluster := [], trace := [] } =
      (none, { cluster := [], trace := [] }) ∧
    DeleteInventoryObj (memClient .DryRunServer) (some (recordOf [objMeta1]))
        { cluster := [recordOf [objMeta1]], trace := [] } =
      (none, { cluster := [recordOf [objMeta1]], trace := [] }) ∧
    (runCalls (memClient .DryRunClient)
        [.merge (some localDescriptor) [objMeta2, objMeta3],
         .replace (some localDescriptor) [objMeta3],
         .mergeClusterInventory [recordOf [objMeta1], duplicateOf [objMeta2]],
         .deleteInventoryObj (some (recordOf [objMeta1]))]
        { cluster := [recordOf [objMeta1], duplicateOf [objMeta2]], trace := [] }).cluster =
      [recordOf [objMeta1], duplicateOf [objMeta2]] ∧
    (runCalls (memClient .DryRunClient)
        [.merge (some localDescriptor) [objMeta2, objMeta3],
         .replace (some localDescriptor) [objMeta3],
         .mergeClusterInventory [recordOf [objMeta1], duplicateOf [objMeta2]],
         .deleteInventoryObj (some (recordOf [objMeta1]))]
        { cluster := [recordOf [objMeta1], duplicateOf [objMeta2]], trace := [] }).mutations =
      [] :=
  ⟨(dry_run_gating (memClient .DryRunClient) (Or.inl rfl)).1 _ _,
   (dry_run_gating (memClient .DryRunServer) (Or.inr rfl)).2.1 _ _,
   (dry_run_gating (memClient .DryRunServer) (Or.inr rfl)).2.2.1 _ _,
   ((dry_run_gating (memClient .DryRunClient) (Or.inl rfl)).2.2.2 _ _).1,
   ((dry_run_gating (memClient .DryRunClient) (Or.inl rfl)).2.2.2 _ _).2⟩

/-! ### The dry run against the real run -/

theorem setDryRunStrategy_strategy (cic : ClusterInventoryClient U I M C H R S W)
    (drs : DryRunStrategy) : (SetDryRunStrategy cic drs).dryRunStrategy = drs := rfl

/-- Outside the success path the two runs can differ.  The record encodes
`{objMeta1, objMeta2}`, the desired set is `{objMeta2, objMeta3}` and the inventory
wrapper cannot encode (`GetObject` fails): with dry-run `None`, `Merge` returns the
error of `GetObject` before it issues any mutation; with `Client` or `Server` it
skips `GetObject` and returns the same prune set with no error. -/
theorem merge_dry_run_differs_when_encoding_fails :
    (Merge (memClientNoEncode .DryRunNone) (some localDescriptor) [objMeta2, objMeta3]
        { cluster := [recordOf [objMeta1, objMeta2]], trace := [] }).1 =
      ([objMeta1], some (.errorf "cannot encode inventory")) ∧
    (Merge (memClientNoEncode .DryRunNone) (some localDescriptor) [objMeta2, objMeta3]
        { cluster := [recordOf [objMeta1, objMeta2]], trace := [] }).2.mutations = [] ∧
    (Merge (memClientNoEncode .DryRunClient) (some localDescriptor) [objMeta2, objMeta3]
        { cluster := [recordOf [objMeta1, objMeta2]], trace := [] }).1 =
      ([objMeta1], none) ∧
    (Merge (memClientNoEncode .DryRunServer) (some localDescriptor) [objMeta2, objMeta3]
        { cluster := [recordOf [objMeta1, objMeta2]], trace := [] }).1 =
      ([objMeta1], none) :=
  ⟨rfl, rfl, rfl, rfl⟩

end ClientFacts

/-! ## The set algebra -/

theorem setEquals_eq_true_iff (setA setB : List ObjMetadata) :
    SetEquals setA setB = true ↔ (∀ a ∈ setA, a ∈ setB) ∧ (∀ b ∈ setB, b ∈ setA) := by
  simp [SetEquals, List.all_eq_true]

theorem mem_setDiff (setA setB : List ObjMetadata) (x : ObjMetadata) :
    x ∈ SetDiff setA setB ↔ x ∈ setA ∧ x ∉ setB := by
  simp [SetDiff, List.mem_dedup, List.mem_filter]

theorem mem_union (setA setB : List ObjMetadata) (x : ObjMetadata) :
    x ∈ Union setA setB ↔ x ∈ setA ∨ x ∈ setB := by
  simp [Union, List.mem_dedup]

theorem nodup_union (setA setB : List ObjMetadata) : (Union setA setB).Nodup :=
  List.nodup_dedup _

/-- Whether two lists are set-equal depends only on which identities they hold. -/
theorem setEquals_congr (setA setA1 setB setB1 : List ObjMetadata)
    (hA : ∀ x, x ∈ setA ↔ x ∈ setA1) (hB : ∀ x, x ∈ setB ↔ x ∈ setB1) :
    SetEquals setA setB = SetEquals setA1 setB1 := by
  rw [Bool.eq_iff_iff, setEquals_eq_true_iff, setEquals_eq_true_iff]
  constructor
  · rintro ⟨h1, h2⟩
    exact ⟨fun a ha => (hB a).1 (h1 a ((hA a).2 ha)), fun b hb => (hA b).1 (h2 b ((hB b).2 hb))⟩
  · rintro ⟨h1, h2⟩
    exact ⟨fun a ha => (hB a).2 (h1 a ((hA a).1 ha)), fun b hb => (hA b).2 (h2 b ((hB b).1 hb))⟩

/-- C11: an identity is in `SetDiff(A, B)` iff it is in `A` and not in `B`;
`SetDiff(A, A)` is empty and `SetDiff(A, [])` is set-equal to `A`. -/
theorem setDiff_membership :
    (∀ (setA setB : List ObjMetadata) (x : ObjMetadata),
      x ∈ SetDiff setA setB ↔ x ∈ setA ∧ x ∉ setB) ∧
    (∀ setA : List ObjMetadata, SetDiff setA setA = []) ∧
    (∀ setA : List ObjMetadata, SetEquals (SetDiff setA []) setA = true) := by
  refine ⟨mem_setDiff, ?_, ?_⟩
  · intro setA
    apply List.eq_nil_iff_forall_not_mem.2
    intro x hx
    exact ((mem_setDiff _ _ _).1 hx).2 ((mem_setDiff _ _ _).1 hx).1
  · intro setA
    rw [setEquals_eq_true_iff]
    constructor
    · intro a ha
      exact ((mem_setDiff _ _ _).1 ha).1
    · intro b hb
      exact (mem_setDiff _ _ _).2 ⟨hb, List.not_mem_nil b⟩

/-- C11, on the cases of `TestSetDiff`: `objMeta2` is in the difference of
`{objMeta2, objMeta1}` and `{objMeta1}`, `objMeta1` is not; a set minus itself is
empty; a set minus the empty set is set-equal to the set. -/
theorem setDiff_membership_witness :
    objMeta2 ∈ SetDiff [objMeta2, objMeta1] [objMeta1] ∧
      objMeta1 ∉ SetDiff [objMeta2, objMeta1] [objMeta1] ∧
      SetDiff [objMeta2, objMeta1] [objMeta2, objMeta1] = [] ∧
      SetEquals (SetDiff [objMeta1, objMeta3] []) [objMeta1, objMeta3] = true :=
  ⟨(setDiff_membership.1 _ _ _).2 (by decide),
   fun h => absurd ((setDiff_membership.1 _ _ _).1 h) (by decide),
   setDiff_membership.2.1 _,
   setDiff_membership.2.2 _⟩

/-- C12: an identity is in `Union(A, B)` iff it is in `A` or in `B`; the result has
no duplicates, so each such identity occurs exactly once, whatever duplicates or
overlap `A` and `B` have; `Union(A, [])` is set-equal to `A`. -/
theorem union_membership_unique :
    (∀ (setA setB : List ObjMetadata) (x : ObjMetadata),
      x ∈ Union setA setB ↔ x ∈ setA ∨ x ∈ setB) ∧
    (∀ setA setB : List ObjMetadata, (Union setA setB).Nodup) ∧
    (∀ (setA setB : List ObjMetadata) (x : ObjMetadata),
      x ∈ setA ∨ x ∈ setB → (Union setA setB).count x = 1) ∧
    (∀ setA : List ObjMetadata, SetEquals (Union setA []) setA = true) := by
  refine ⟨mem_union, nodup_union, ?_, ?_⟩
  · intro setA setB x hx
    exact List.count_eq_one_of_mem (nodup_union _ _) ((mem_union _ _ _).2 hx)
  · intro setA
    rw [setEquals_eq_true_iff]
    constructor
    · intro a ha
      rcases (mem_union _ _ _).1 ha with h | h
      · exact h
      · exact absurd h (List.not_mem_nil a)
    · intro b hb
      exact (mem_union _ _ _).2 (Or.inl hb)

/-- C12, on lists with a duplicate and an overlap: `objMeta1` occurs twice in the
first list and once more in the second, and exactly once in the union. -/
theorem union_membership_unique_witness :
    objMeta3 ∈ Union [objMeta1, objMeta2, objMeta1] [objMeta1, objMeta3] ∧
      (Union [objMeta1, objMeta2, objMeta1] [objMeta1, objMeta3]).count objMeta1 = 1 ∧
      (Union [objMeta1, objMeta2, objMeta1] [objMeta1, objMeta3]).Nodup ∧
      SetEquals (Union [objMeta1, objMeta3] []) [objMeta1, objMeta3] = true :=
  ⟨(union_membership_unique.1 _ _ _).2 (by decide),
   union_membership_unique.2.2.1 _ _ _ (by decide),
   union_membership_unique.2.1 _ _,
   union_membership_unique.2.2.2 _⟩

/-- C13: `SetEquals(A, B)` is true iff every element of `A` occurs in `B` and every
element of `B` occurs in `A`; its value is the same for every reordering of `A` and
of `B`, and is not changed by removing or adding duplicate occurrences; it is
reflexive and symmetric. -/
theorem setEquals_characterisation :
    (∀ setA setB : List ObjMetadata,
      SetEquals setA setB = true ↔ (∀ a ∈ setA, a ∈ setB) ∧ (∀ b ∈ setB, b ∈ setA)) ∧
    (∀ setA setA1 setB setB1 : List ObjMetadata, setA.Perm setA1 → setB.Perm setB1 →
      SetEquals setA setB = SetEquals setA1 setB1) ∧
    (∀ setA setB : List ObjMetadata,
      SetEquals setA.dedup setB = SetEquals setA setB ∧
        SetEquals setA setB.dedup = SetEquals setA setB ∧
        SetEquals (setA ++ setA) setB = SetEquals setA setB) ∧
    (∀ setA : List ObjMetadata, SetEquals setA setA = true) ∧
    (∀ setA setB : List ObjMetadata, SetEquals setA setB = SetEquals setB setA) := by
  refine ⟨setEquals_eq_true_iff, ?_, ?_, ?_, ?_⟩
  · intro setA setA1 setB setB1 hA hB
    exact setEquals_congr _ _ _ _ (fun x => hA.mem_iff) (fun x => hB.mem_iff)
  · intro setA setB
    refine ⟨?_, ?_, ?_⟩
    · exact setEquals_congr _ _ _ _ (fun x => List.mem_dedup) (fun x => Iff.rfl)
    · exact setEquals_congr _ _ _ _ (fun x => Iff.rfl) (fun x => List.mem_dedup)
    · exact setEquals_congr _ _ _ _ (fun x => by simp) (fun x => Iff.rfl)
  · intro setA
    rw [setEquals_eq_true_iff]
    exact ⟨fun a ha => ha, fun b hb => hb⟩
  · intro setA setB
    rw [Bool.eq_iff_iff, setEquals_eq_true_iff, setEquals_eq_true_iff]
    exact And.comm

/-- C13, on the cases of `TestSetEquals` and on a list with a repeated element. -/
theorem setEquals_characterisation_witness :
    SetEquals [objMeta2, objMeta1] [objMeta1, objMeta2] = true ∧
      SetEquals [objMeta2, objMeta1] [objMeta1, objMeta3] = false ∧
      SetEquals [objMeta1, objMeta3] [] = false ∧
      SetEquals [objMeta1, objMeta2, objMeta1] [objMeta2, objMeta1] = true ∧
      SetEquals [objMeta1, objMeta2] [objMeta3] = SetEquals [objMeta2, objMeta1] [objMeta3] :=
  ⟨(setEquals_characterisation.1 _ _).2 (by decide),
   Bool.eq_false_iff.2 (fun h => absurd ((setEquals_characterisation.1 _ _).1 h) (by decide)),
   Bool.eq_false_iff.2 (fun h => absurd ((setEquals_characterisation.1 _ _).1 h) (by decide)),
   (setEquals_characterisation.1 _ _).2 (by decide),
   setEquals_characterisation.2.1 _ _ _ _ (List.Perm.swap _ _ _) (List.Perm.refl _)⟩

/-! ## The hash -/

theorem sortStrings_perm (strs strs1 : List (List Nat)) (h : strs.Perm strs1) :
    sortStrings strs = sortStrings strs1 := by
  unfold sortStrings
  exact List.eq_of_perm_of_sorted
    ((List.perm_insertionSort _ _).trans (h.trans (List.perm_insertionSort _ _).symm))
    (List.sorted_insertionSort _ _) (List.sorted_insertionSort _ _)

/-- C14: for every list of identities `L` and every permutation `P` of `L`,
`Hash(P)` succeeds and equals `Hash(L)`. -/
theorem hash_perm (L P : List ObjMetadata) (h : P.Perm L) :
    Hash P = Hash L ∧ ∃ token, Hash P = .ok token := by
  refine ⟨?_, ⟨_, rfl⟩⟩
  unfold Hash
  rw [sortStrings_perm _ _ (h.map _)]

set_option maxRecDepth 20000 in
/-- C14, on the fixtures of `TestHash`: `[objMeta2, objMeta3, objMeta1]` and
`[objMeta1, objMeta2, objMeta3]` both hash to `d69d726a`, a single identity to
`3715cd95` and the empty list to `811c9dc5`. -/
theorem hash_perm_witness :
    Hash [objMeta2, objMeta3, objMeta1] = .ok "d69d726a" ∧
      Hash [objMeta1, objMeta2, objMeta3] = .ok "d69d726a" ∧
      Hash [objMeta1] = .ok "3715cd95" ∧ Hash [] = .ok "811c9dc5" :=
  ⟨(hash_perm [objMeta1, objMeta2, objMeta3] [objMeta2, objMeta3, objMeta1]
      (List.perm_append_comm :
        ([objMeta2, objMeta3] ++ [objMeta1]).Perm ([objMeta1] ++ [objMeta2, objMeta3]))).1.trans
      rfl,
   rfl, rfl, rfl⟩

/-! ## Healing duplicate records -/

section HealFacts

variable {U I M C H R S W : Type}

theorem mergeDeleteLoop_append (cic : ClusterInventoryClient U I M C H R S W)
    (pre rest : List U) (w w1 : World S I) (h : mergeDeleteLoop cic pre w = (none, w1)) :
    mergeDeleteLoop cic (pre ++ rest) w = mergeDeleteLoop cic rest w1 := by
  induction pre generalizing w with
  | nil =>
    simp only [mergeDeleteLoop, Prod.mk.injEq, true_and] at h
    rw [List.nil_append, h]
  | cons merge pre ih =>
    simp only [mergeDeleteLoop, List.cons_append] at h ⊢
    rcases hd : DeleteInventoryObj cic (some merge) w with ⟨e, w0⟩
    rw [hd] at h
    cases e with
    | some err => simp at h
    | none => exact ih w0 h

/-- An error of `getClusterInventoryInfo` is what `Merge`, `Replace` and
`GetClusterObjs` return, without any further call. -/
theorem locate_error_propagates (cic : ClusterInventoryClient U I M C H R S W)
    (localInv : Option U) (objs : List ObjMetadata) (w w1 : World S I) (err : GoError)
    (h : getClusterInventoryInfo cic localInv w = (.error err, w1)) :
    Merge cic localInv objs w = (([], some err), w1) ∧
      Replace cic localInv objs w = (some err, w1) ∧
      GetClusterObjs cic localInv w = (([], some err), w1) := by
  simp [Merge, Replace, GetClusterObjs, h]

/-- C15, as stated, fails: two duplicate records on a store that refuses every
`Delete`.  The write of the retained record succeeds (the store holds it with the
union and a new revision token), the `Delete` of the other record fails, and
`mergeClusterInventory` returns that error instead of the retained record; so do
`Merge`, `Replace` and `GetClusterObjs`. -/
theorem heal_delete_failure_is_returned :
    mergeClusterInventory (memClientNoDelete .DryRunNone)
        [recordOf [objMeta1], duplicateOf [objMeta2]]
        { cluster := [recordOf [objMeta1], duplicateOf [objMeta2]], trace := [] } =
      (.error (.errorf "Forbidden"),
        { cluster := [recordOf [objMeta1],
            { duplicateOf [objMeta2, objMeta1] with revision := 4 }],
          trace := [.replace (duplicateOf [objMeta2, objMeta1]),
            .delete (recordOf [objMeta1])] }) ∧
    (Merge (memClientNoDelete .DryRunNone) (some localDescriptor) [objMeta3]
        { cluster := [recordOf [objMeta1], duplicateOf [objMeta2]], trace := [] }).1 =
      ([], some (.errorf "Forbidden")) ∧
    (Replace (memClientNoDelete .DryRunNone) (some localDescriptor) [objMeta3]
        { cluster := [recordOf [objMeta1], duplicateOf [objMeta2]], trace := [] }).1 =
      some (.errorf "Forbidden") ∧
    (GetClusterObjs (memClientNoDelete .DryRunNone) (some localDescriptor)
        { cluster := [recordOf [objMeta1], duplicateOf [objMeta2]], trace := [] }).1 =
      ([], some (.errorf "Forbidden")) :=
  ⟨rfl, rfl, rfl, rfl⟩

/-- C15 (amended): in `mergeClusterInventory`, if the write of the retained record
succeeds and the `Delete` of one of the other candidate records fails, the call
fails with the error of that `Delete`: it returns nil and the error, the world is
the one right after the failing `Delete` (the write of the retained record is not
undone and no later candidate is deleted); and `Merge`, `Replace` and
`GetClusterObjs` return the error that `getClusterInventoryInfo` got from it. -/
theorem heal_fails_on_delete_failure (cic : ClusterInventoryClient U I M C H R S W)
    (invObjs pre post : List U) (retained bad : U) (retainedObjs unionObjs : List ObjMetadata)
    (wrapped : W) (retainInfo : Option U) (w w1 w2 w3 : World S I) (err : GoError)
    (hsort : cic.sortUnstructureds invObjs = retained :: (pre ++ bad :: post))
    (hne : invObjs.length ≠ 0)
    (hload : cic.Load (cic.InventoryFactoryFunc (some retained)) = (retainedObjs, none))
    (hloop : mergeLoadLoop cic retainedObjs (pre ++ bad :: post) = .ok unionObjs)
    (hstore : cic.Store (cic.InventoryFactoryFunc (some retained)) unionObjs = .ok wrapped)
    (hget : cic.GetObject wrapped = .ok retainInfo)
    (hwrite : applyInventoryObj cic retainInfo w = (none, w1))
    (hpre : mergeDeleteLoop cic pre w1 = (none, w2))
    (hbad : DeleteInventoryObj cic (some bad) w2 = (some err, w3)) :
    mergeClusterInventory cic invObjs w = (.error err, w3) ∧
      ∀ (localInv : Option U) (objs : List ObjMetadata) (w0 : World S I),
        getClusterInventoryInfo cic localInv w0 = (.error err, w3) →
        Merge cic localInv objs w0 = (([], some err), w3) ∧
          Replace cic localInv objs w0 = (some err, w3) ∧
          GetClusterObjs cic localInv w0 = (([], some err), w3) := by
  refine ⟨?_, fun localInv objs w0 h => locate_error_propagates cic localInv objs w0 w3 err h⟩
  have hdel : mergeDeleteLoop cic (pre ++ bad :: post) w1 = (some err, w3) := by
    rw [mergeDeleteLoop_append cic pre _ w1 w2 hpre]
    simp [mergeDeleteLoop, hbad]
  simp [mergeClusterInventory, hne, hsort, hload, hloop, hstore, hget, hwrite, hdel]

/-- C15 (amended), on the store that refuses every `Delete`: the heal of two
duplicate records fails with `Forbidden` after the retained record has been
written, and `Merge` returns that error. -/
theorem heal_fails_on_delete_failure_witness :
    mergeClusterInventory (memClientNoDelete .DryRunNone)
        [recordOf [objMeta1], duplicateOf [objMeta2]]
        { cluster := [recordOf [objMeta1], duplicateOf [objMeta2]],
          trace := [.infos "configmaps" "default" "inventory-id=id-1"] } =
      (.error (.errorf "Forbidden"),
        { cluster := [recordOf [objMeta1],
            { duplicateOf [objMeta2, objMeta1] with revision := 4 }],
          trace := [.infos "configmaps" "default" "inventory-id=id-1",
            .replace (duplicateOf [objMeta2, objMeta1]),
            .delete (recordOf [objMeta1])] }) ∧
    Merge (memClientNoDelete .DryRunNone) (some localDescriptor) [objMeta3]
        { cluster := [recordOf [objMeta1], duplicateOf [objMeta2]], trace := [] } =
      (([], some (.errorf "Forbidden")),
        { cluster := [recordOf [objMeta1],
            { duplicateOf [objMeta2, objMeta1] with revision := 4 }],
          trace := [.infos "configmaps" "default" "inventory-id=id-1",
            .replace (duplicateOf [objMeta2, objMeta1]),
            .delete (recordOf [objMeta1])] }) :=
  have h := heal_fails_on_delete_failure (memClientNoDelete .DryRunNone)
    [recordOf [objMeta1], duplicateOf [objMeta2]] [] [] (duplicateOf [objMeta2])
    (recordOf [objMeta1]) [objMeta2] [objMeta2, objMeta1]
    { inv := some (duplicateOf [objMeta2]), objMetas := [objMeta2, objMeta1] }
    (some (duplicateOf [objMeta2, objMeta1]))
    { cluster := [recordOf [objMeta1], duplicateOf [objMeta2]],
      trace := [.infos "configmaps" "default" "inventory-id=id-1"] }
    { cluster := [recordOf [objMeta1], { duplicateOf [objMeta2, objMeta1] with revision := 4 }],
      trace := [.infos "configmaps" "default" "inventory-id=id-1",
        .replace (duplicateOf [objMeta2, objMeta1])] }
    { cluster := [recordOf [objMeta1], { duplicateOf [objMeta2, objMeta1] with revision := 4 }],
      trace := [.infos "configmaps" "default" "inventory-id=id-1",
        .replace (duplicateOf [objMeta2, objMeta1])] }
    { cluster := [recordOf [objMeta1], { duplicateOf [objMeta2, objMeta1] with revision := 4 }],
      trace := [.infos "configmaps" "default" "inventory-id=id-1",
        .replace (duplicateOf [objMeta2, objMeta1]), .delete (recordOf [objMeta1])] }
    (.errorf "Forbidden") rfl (by decide) rfl rfl rfl rfl rfl rfl rfl
  ⟨h.1, (h.2 (some localDescriptor) [objMeta3]
    { cluster := [recordOf [objMeta1], duplicateOf [objMeta2]], trace := [] } rfl).1⟩

/-! ### The order of the remote calls of a heal -/

theorem deleteInventoryObj_trace (cic : ClusterInventoryClient U I M C H R S W)
    (obj : Option U) (w : World S I) :
    ∃ dels, (DeleteInventoryObj cic obj w).2.trace = w.trace ++ dels ∧
      ∀ op ∈ dels, RemoteOp.isDelete op = true := by
  simp only [DeleteInventoryObj]
  repeat' split
  all_goals first
    | (refine ⟨[.delete _], rfl, ?_⟩
       simp [RemoteOp.isDelete])
    | (refine ⟨[], ?_, ?_⟩ <;> simp)

theorem mergeDeleteLoop_trace (cic : ClusterInventoryClient U I M C H R S W)
    (others : List U) (w : World S I) :
    ∃ dels, (mergeDeleteLoop cic others w).2.trace = w.trace ++ dels ∧
      ∀ op ∈ dels, RemoteOp.isDelete op = true := by
  induction others generalizing w with
  | nil => exact ⟨[], by simp [mergeDeleteLoop], by simp⟩
  | cons merge rest ih =>
    obtain ⟨d1, h1, h2⟩ := deleteInventoryObj_trace cic (some merge) w
    rcases hd : DeleteInventoryObj cic (some merge) w with ⟨e, w1⟩
    rw [hd] at h1
    simp only at h1
    cases e with
    | some err => exact ⟨d1, by simp [mergeDeleteLoop, hd, h1], h2⟩
    | none =>
      obtain ⟨d2, h3, h4⟩ := ih w1
      refine ⟨d1 ++ d2, by simp [mergeDeleteLoop, hd, h3, h1], ?_⟩
      intro op hop
      rcases List.mem_append.1 hop with h | h
      · exact h2 op h
      · exact h4 op h

/-- With dry-run `None`, a `DeleteInventoryObj` that returns nil has issued the
`Delete` of the `resource.Info` built from its object. -/
theorem deleteInventoryObj_ok_trace (cic : ClusterInventoryClient U I M C H R S W)
    (hnone : cic.dryRunStrategy = .DryRunNone) (u : U) (w w1 : World S I)
    (h : DeleteInventoryObj cic (some u) w = (none, w1)) :
    ∃ info, toInfo cic u = .ok info ∧ w1.trace = w.trace ++ [.delete info] := by
  simp only [DeleteInventoryObj, hnone, DryRunStrategy.ClientOrServerDryRun,
    Bool.false_eq_true, if_false] at h
  cases hi : toInfo cic u with
  | error err => simp [hi] at h
  | ok info =>
    cases hh : helperFromInfo cic info with
    | error err => simp [hi, hh] at h
    | ok helper =>
      simp only [hi, hh, Prod.mk.injEq] at h
      refine ⟨info, rfl, ?_⟩
      rw [← h.2]
      rfl

/-- With dry-run `None`, a delete loop that returns nil has issued exactly one
`Delete` for every object of its list, in the order of the list. -/
theorem mergeDeleteLoop_ok_trace (cic : ClusterInventoryClient U I M C H R S W)
    (hnone : cic.dryRunStrategy = .DryRunNone) (others : List U) (w w2 : World S I)
    (h : mergeDeleteLoop cic others w = (none, w2)) :
    ∃ infos, List.Forall₂ (fun u info => toInfo cic u = .ok info) others infos ∧
      w2.trace = w.trace ++ infos.map RemoteOp.delete := by
  induction others generalizing w with
  | nil =>
    simp only [mergeDeleteLoop, Prod.mk.injEq, true_and] at h
    exact ⟨[], List.Forall₂.nil, by simp [h]⟩
  | cons merge rest ih =>
    simp only [mergeDeleteLoop] at h
    rcases hd : DeleteInventoryObj cic (some merge) w with ⟨e, w1⟩
    rw [hd] at h
    cases e with
    | some err => simp at h
    | none =>
      obtain ⟨info, hi, ht⟩ := deleteInventoryObj_ok_trace cic hnone merge w w1 hd
      obtain ⟨infos, hf, ht2⟩ := ih w1 h
      exact ⟨info :: infos, List.Forall₂.cons hi hf, by simp [ht2, ht]⟩

/-- With dry-run `None`, `applyInventoryObj` either issues nothing and fails, or
issues the `Replace` of the `resource.Info` built from its object; it returns nil
only when that `Replace` and the refresh succeeded. -/
theorem applyInventoryObj_real (cic : ClusterInventoryClient U I M C H R S W)
    (hnone : cic.dryRunStrategy = .DryRunNone) (obj : Option U) (w w1 : World S I)
    (e : Option GoError) (h : applyInventoryObj cic obj w = (e, w1)) :
    (w1 = w ∧ e ≠ none) ∨
      ∃ o info, obj = some o ∧ toInfo cic o = .ok info ∧
        w1.trace = w.trace ++ [.replace info] ∧
        (e = none → ∃ replaced cluster1,
          cic.helperReplace (cic.NewHelper (cic.infoClient info) (cic.infoMapping info))
            w.cluster info = (.ok replaced, cluster1) ∧
          cic.Refresh info replaced true = none ∧ w1.cluster = cluster1) := by
  simp only [applyInventoryObj, hnone, DryRunStrategy.ClientOrServerDryRun,
    Bool.false_eq_true, if_false] at h
  cases obj with
  | none =>
    simp only [Prod.mk.injEq] at h
    exact Or.inl ⟨h.2.symm, by rw [← h.1]; simp⟩
  | some o =>
    cases hi : toInfo cic o with
    | error err =>
      simp only [hi, Prod.mk.injEq] at h
      exact Or.inl ⟨h.2.symm, by rw [← h.1]; simp⟩
    | ok info =>
      simp only [hi] at h
      rcases hr : cic.helperReplace (cic.NewHelper (cic.infoClient info)
        (cic.infoMapping info)) w.cluster info with ⟨res, cluster1⟩
      rw [hr] at h
      cases res with
      | error err =>
        simp only [Prod.mk.injEq] at h
        refine Or.inr ⟨o, info, rfl, hi, by rw [← h.2]; rfl, ?_⟩
        intro he
        rw [← h.1] at he
        simp at he
      | ok replaced =>
        simp only [Prod.mk.injEq] at h
        refine Or.inr ⟨o, info, rfl, hi, by rw [← h.2]; rfl, ?_⟩
        intro he
        refine ⟨replaced, cluster1, hr, ?_, by rw [← h.2]; rfl⟩
        rw [h.1, he]

/-- A load loop that succeeds has decoded every object of its list, and its result
holds the retained identities and those of every object of the list. -/
theorem mergeLoadLoop_ok (cic : ClusterInventoryClient U I M C H R S W)
    (retainedObjs unionObjs : List ObjMetadata) (others : List U)
    (h : mergeLoadLoop cic retainedObjs others = .ok unionObjs) :
    (∀ u ∈ others, (cic.Load (cic.InventoryFactoryFunc (some u))).2 = none) ∧
      ∀ x, x ∈ unionObjs ↔
        x ∈ retainedObjs ∨ ∃ u ∈ others, x ∈ (cic.Load (cic.InventoryFactoryFunc (some u))).1 := by
  induction others generalizing retainedObjs with
  | nil =>
    simp only [mergeLoadLoop, Except.ok.injEq] at h
    subst h
    simp
  | cons merge rest ih =>
    simp only [mergeLoadLoop] at h
    rcases hl : cic.Load (cic.InventoryFactoryFunc (some merge)) with ⟨mergeObjs, e⟩
    rw [hl] at h
    cases e with
    | some err => simp at h
    | none =>
      obtain ⟨h1, h2⟩ := ih _ h
      constructor
      · intro u hu
        rcases List.mem_cons.1 hu with rfl | hu
        · rw [hl]
        · exact h1 u hu
      · intro x
        rw [h2 x, mem_union]
        constructor
        · rintro ((hx | hx) | ⟨u, hu, hx⟩)
          · exact Or.inl hx
          · exact Or.inr ⟨merge, List.mem_cons_self _ _, by rw [hl]; exact hx⟩
          · exact Or.inr ⟨u, List.mem_cons_of_mem _ hu, hx⟩
        · rintro (hx | ⟨u, hu, hx⟩)
          · exact Or.inl (Or.inl hx)
          · rcases List.mem_cons.1 hu with rfl | hu
            · rw [hl] at hx
              exact Or.inl (Or.inr hx)
            · exact Or.inr ⟨u, hu, hx⟩

/-- C16: in every execution of `mergeClusterInventory` with dry-run `None`, the
remote calls it issues contain a `Delete` only if every candidate was decoded, the
union was stored in the wrapper of the retained record, and the `Replace` of the
object obtained from it was issued first, at the store state of the start, and
returned success (the refresh too); every call after that `Replace` is a `Delete`.
So when decoding a candidate, storing the union or that `Replace` fails, no `Delete`
is in the trace. -/
theorem heal_persist_before_delete (cic : ClusterInventoryClient U I M C H R S W)
    (hnone : cic.dryRunStrategy = .DryRunNone) (invObjs : List U) (w : World S I) :
    ∃ ops, (mergeClusterInventory cic invObjs w).2.trace = w.trace ++ ops ∧
      ((∃ op ∈ ops, RemoteOp.isDelete op = true) →
        ∃ (retained : U) (others : List U) (retainedObjs unionObjs : List ObjMetadata)
          (wrapped : W) (retainObj : U) (info : I) (replaced : R) (cluster1 : S)
          (dels : List (RemoteOp I)),
          cic.sortUnstructureds invObjs = retained :: others ∧
          cic.Load (cic.InventoryFactoryFunc (some retained)) = (retainedObjs, none) ∧
          (∀ u ∈ others, (cic.Load (cic.InventoryFactoryFunc (some u))).2 = none) ∧
          mergeLoadLoop cic retainedObjs others = .ok unionObjs ∧
          cic.Store (cic.InventoryFactoryFunc (some retained)) unionObjs = .ok wrapped ∧
          cic.GetObject wrapped = .ok (some retainObj) ∧
          toInfo cic retainObj = .ok info ∧
          cic.helperReplace (cic.NewHelper (cic.infoClient info) (cic.infoMapping info))
            w.cluster info = (.ok replaced, cluster1) ∧
          cic.Refresh info replaced true = none ∧
          ops = .replace info :: dels ∧ ∀ op ∈ dels, RemoteOp.isDelete op = true) := by
  by_cases hlen : invObjs.length = 0
  · exact ⟨[], by simp [mergeClusterInventory, hlen], by simp⟩
  cases hs : cic.sortUnstructureds invObjs with
  | nil => exact ⟨[], by simp [mergeClusterInventory, hlen, hs], by simp⟩
  | cons retained others =>
    rcases hl : cic.Load (cic.InventoryFactoryFunc (some retained)) with ⟨retainedObjs, e⟩
    cases e with
    | some err => exact ⟨[], by simp [mergeClusterInventory, hlen, hs, hl], by simp⟩
    | none =>
      cases hloop : mergeLoadLoop cic retainedObjs others with
      | error err =>
        exact ⟨[], by simp [mergeClusterInventory, hlen, hs, hl, hloop], by simp⟩
      | ok unionObjs =>
        cases hst : cic.Store (cic.InventoryFactoryFunc (some retained)) unionObjs with
        | error err =>
          exact ⟨[], by simp [mergeClusterInventory, hlen, hs, hl, hloop, hst], by simp⟩
        | ok wrapped =>
          cases hg : cic.GetObject wrapped with
          | error err =>
            exact ⟨[], by simp [mergeClusterInventory, hlen, hs, hl, hloop, hst, hg], by simp⟩
          | ok retainInfo =>
            rcases ha : applyInventoryObj cic retainInfo w with ⟨e, w1⟩
            rcases applyInventoryObj_real cic hnone retainInfo w w1 e ha with
              ⟨hw, he⟩ | ⟨o, info, ho, hi, ht, hok⟩
            · cases e with
              | none => exact absurd rfl he
              | some err =>
                exact ⟨[], by simp [mergeClusterInventory, hlen, hs, hl, hloop, hst, hg, ha, hw],
                  by simp⟩
            · cases e with
              | some err =>
                refine ⟨[.replace info],
                  by simp [mergeClusterInventory, hlen, hs, hl, hloop, hst, hg, ha, ht], ?_⟩
                rintro ⟨op, hop, hdel⟩
                rw [List.mem_singleton.1 hop] at hdel
                simp [RemoteOp.isDelete] at hdel
              | none =>
                obtain ⟨replaced, cluster1, hr, hf, -⟩ := hok rfl
                obtain ⟨dels, hd1, hd2⟩ := mergeDeleteLoop_trace cic others w1
                have hres : (mergeClusterInventory cic invObjs w).2 =
                    (mergeDeleteLoop cic others w1).2 := by
                  simp only [mergeClusterInventory, hlen, hs, hl, hloop, hst, hg, ha, if_false]
                  split <;> rename_i heq <;> rw [heq]
                refine ⟨.replace info :: dels, ?_, ?_⟩
                · rw [hres, hd1, ht]
                  simp
                · intro _
                  exact ⟨retained, others, retainedObjs, unionObjs, wrapped, o, info, replaced,
                    cluster1, dels, rfl, hl, (mergeLoadLoop_ok cic _ _ _ hloop).1, hloop, hst,
                    by rw [hg, ho], hi, hr, hf, rfl, hd2⟩

/-- C16, on the in-memory store: the heal of two duplicate records issues the
`Replace` of the retained record and then the `Delete` of the other one; when the
wrapper cannot encode the union, it issues nothing. -/
theorem heal_persist_before_delete_witness :
    (mergeClusterInventory (memClient .DryRunNone)
        [recordOf [objMeta1], duplicateOf [objMeta2]]
        { cluster := [recordOf [objMeta1], duplicateOf [objMeta2]], trace := [] }).2.trace =
      [.replace (duplicateOf [objMeta2, objMeta1]), .delete (recordOf [objMeta1])] ∧
    (mergeClusterInventory (memClientNoEncode .DryRunNone)
        [recordOf [objMeta1], duplicateOf [objMeta2]]
        { cluster := [recordOf [objMeta1], duplicateOf [objMeta2]], trace := [] }).2.trace =
      [] ∧
    ∃ ops, (mergeClusterInventory (memClient .DryRunNone)
        [recordOf [objMeta1], duplicateOf [objMeta2]]
        { cluster := [recordOf [objMeta1], duplicateOf [objMeta2]], trace := [] }).2.trace =
        [] ++ ops ∧
      ((∃ op ∈ ops, RemoteOp.isDelete op = true) →
        ∃ info dels, ops = .replace info :: dels ∧ ∀ op ∈ dels, RemoteOp.isDelete op = true) := by
  refine ⟨rfl, rfl, ?_⟩
  obtain ⟨ops, h1, h2⟩ := heal_persist_before_delete (memClient .DryRunNone) rfl
    [recordOf [objMeta1], duplicateOf [objMeta2]]
    { cluster := [recordOf [objMeta1], duplicateOf [objMeta2]], trace := [] }
  refine ⟨ops, h1, fun hd => ?_⟩
  obtain ⟨_, _, _, _, _, _, info, _, _, dels, _, _, _, _, _, _, _, _, _, hops, hdels⟩ := h2 hd
  exact ⟨info, dels, hops, hdels⟩

/-- C17: for every non-empty list of candidate records, sorted in place to
`retained :: others`, when every step succeeds (dry-run `None`: the candidates are
decoded, the union is stored in the wrapper of `retained`, the `Replace` of the
object obtained from it and every `Delete` succeed), `mergeClusterInventory` returns
that object; the set it stored holds exactly the identities decoded from the
candidates; after the `Replace` it issues exactly one `Delete` for each of the other
candidates, in their order, and nothing else; and when the candidates are distinct
the retained record is not among the deleted ones. -/
theorem heal_result (cic : ClusterInventoryClient U I M C H R S W)
    (invObjs others : List U) (retained retainObj : U)
    (retainedObjs unionObjs : List ObjMetadata) (wrapped : W) (info : I) (replaced : R)
    (cluster1 : S) (w w2 : World S I)
    (hnone : cic.dryRunStrategy = .DryRunNone)
    (hsort : cic.sortUnstructureds invObjs = retained :: others)
    (hperm : (cic.sortUnstructureds invObjs).Perm invObjs)
    (hload : cic.Load (cic.InventoryFactoryFunc (some retained)) = (retainedObjs, none))
    (hloop : mergeLoadLoop cic retainedObjs others = .ok unionObjs)
    (hstore : cic.Store (cic.InventoryFactoryFunc (some retained)) unionObjs = .ok wrapped)
    (hget : cic.GetObject wrapped = .ok (some retainObj))
    (hinfo : toInfo cic retainObj = .ok info)
    (hreplace : cic.helperReplace (cic.NewHelper (cic.infoClient info) (cic.infoMapping info))
      w.cluster info = (.ok replaced, cluster1))
    (hrefresh : cic.Refresh info replaced true = none)
    (hdel : mergeDeleteLoop cic others
      { cluster := cluster1, trace := w.trace ++ [.replace info] } = (none, w2)) :
    mergeClusterInventory cic invObjs w = (.ok (some retainObj), w2) ∧
      (∀ u ∈ invObjs, (cic.Load (cic.InventoryFactoryFunc (some u))).2 = none) ∧
      (∀ x, x ∈ unionObjs ↔
        ∃ u ∈ invObjs, x ∈ (cic.Load (cic.InventoryFactoryFunc (some u))).1) ∧
      (∃ infos, List.Forall₂ (fun u i => toInfo cic u = .ok i) others infos ∧
        w2.trace = w.trace ++ .replace info :: infos.map RemoteOp.delete) ∧
      others.length + 1 = invObjs.length ∧
      (invObjs.Nodup → retained ∉ others ∧ others.Nodup) := by
  rw [hsort] at hperm
  have hlen : others.length + 1 = invObjs.length := by
    rw [← hperm.length_eq]
    rfl
  have hne : ¬ invObjs.length = 0 := by omega
  obtain ⟨hl1, hl2⟩ := mergeLoadLoop_ok cic _ _ _ hloop
  obtain ⟨infos, hf, ht⟩ := mergeDeleteLoop_ok_trace cic hnone others _ w2 hdel
  refine ⟨?_, ?_, ?_, ⟨infos, hf, by simp [ht]⟩, hlen, ?_⟩
  · simp [mergeClusterInventory, hne, hsort, hload, hloop, hstore, hget, applyInventoryObj,
      hnone, DryRunStrategy.ClientOrServerDryRun, hinfo, hreplace, hrefresh, World.record, hdel]
  · intro u hu
    rcases List.mem_cons.1 (hperm.mem_iff.2 hu) with rfl | h
    · rw [hload]
    · exact hl1 u h
  · intro x
    rw [hl2 x]
    constructor
    · rintro (hx | ⟨u, hu, hx⟩)
      · exact ⟨retained, hperm.mem_iff.1 (List.mem_cons_self _ _), by rw [hload]; exact hx⟩
      · exact ⟨u, hperm.mem_iff.1 (List.mem_cons_of_mem _ hu), hx⟩
    · rintro ⟨u, hu, hx⟩
      rcases List.mem_cons.1 (hperm.mem_iff.2 hu) with rfl | h
      · rw [hload] at hx
        exact Or.inl hx
      · exact Or.inr ⟨u, h, hx⟩
  · intro hnd
    have := hperm.nodup_iff.2 hnd
    exact ⟨(List.nodup_cons.1 this).1, (List.nodup_cons.1 this).2⟩

/-- C17, on the in-memory store: two duplicate records encoding `{objMeta1}` and
`{objMeta2}`; the heal keeps the first in the sorted order (the older revision
token), writes the union to it and deletes the other one, so that one record
encoding `{objMeta2, objMeta1}` is left. -/
theorem heal_result_witness :
    mergeClusterInventory (memClient .DryRunNone)
        [recordOf [objMeta1], duplicateOf [objMeta2]]
        { cluster := [recordOf [objMeta1], duplicateOf [objMeta2]], trace := [] } =
      (.ok (some (duplicateOf [objMeta2, objMeta1])),
        { cluster := [{ duplicateOf [objMeta2, objMeta1] with revision := 4 }],
          trace := [.replace (duplicateOf [objMeta2, objMeta1]),
            .delete (recordOf [objMeta1])] }) :=
  (heal_result (memClient .DryRunNone) [recordOf [objMeta1], duplicateOf [objMeta2]]
    [recordOf [objMeta1]] (duplicateOf [objMeta2]) (duplicateOf [objMeta2, objMeta1])
    [objMeta2] [objMeta2, objMeta1]
    { inv := some (duplicateOf [objMeta2]), objMetas := [objMeta2, objMeta1] }
    (duplicateOf [objMeta2, objMeta1])
    { duplicateOf [objMeta2, objMeta1] with revision := 4 }
    [recordOf [objMeta1], { duplicateOf [objMeta2, objMeta1] with revision := 4 }]
    { cluster := [recordOf [objMeta1], duplicateOf [objMeta2]], trace := [] }
    { cluster := [{ duplicateOf [objMeta2, objMeta1] with revision := 4 }],
      trace := [.replace (duplicateOf [objMeta2, objMeta1]), .delete (recordOf [objMeta1])] }
    rfl rfl (List.perm_insertionSort _ _) rfl rfl rfl rfl rfl rfl rfl rfl).1

/-- C18: when exactly one record is located and the desired set is set-equal to the
set decoded from it, `Merge` returns an empty prune set and no error and `Replace`
returns no error; the remote calls they issue are the label-selector fetches only
(two for `Merge`, one for `Replace`): the store state is what it was and no create,
replace or delete is issued.  This holds for every dry-run strategy. -/
theorem idempotent_short_circuit (cic : ClusterInventoryClient U I M C H R S W) (inv : U)
    (objs current : List ObjMetadata) (w : World S I) (mapping : M) (label : String) (info : I)
    (hmap : cic.mapper (cic.UnstructuredToObjMeta inv).GroupKind = .ok mapping)
    (hlabel : cic.retrieveInventoryLabel inv = .ok label)
    (hlocate : cic.builderInfos w.cluster (cic.groupResource mapping)
      (cic.UnstructuredToObjMeta inv).Namespace (cic.InventoryLabel ++ "=" ++ label) =
      .ok [info])
    (hload : cic.Load (cic.InventoryFactoryFunc (some (cic.InfoToUnstructured info))) =
      (current, none))
    (heq : SetEquals objs current = true) :
    Merge cic (some inv) objs w =
        (([], none),
          { cluster := w.cluster,
            trace := w.trace ++
              [.infos (cic.groupResource mapping) (cic.UnstructuredToObjMeta inv).Namespace
                  (cic.InventoryLabel ++ "=" ++ label),
                .infos (cic.groupResource mapping) (cic.UnstructuredToObjMeta inv).Namespace
                  (cic.InventoryLabel ++ "=" ++ label)] }) ∧
      (Merge cic (some inv) objs w).2.mutations = w.mutations ∧
      Replace cic (some inv) objs w =
        (none,
          { cluster := w.cluster,
            trace := w.trace ++
              [.infos (cic.groupResource mapping) (cic.UnstructuredToObjMeta inv).Namespace
                  (cic.InventoryLabel ++ "=" ++ label)] }) ∧
      (Replace cic (some inv) objs w).2.mutations = w.mutations := by
  have hm : Merge cic (some inv) objs w =
      (([], none),
        { cluster := w.cluster,
          trace := w.trace ++
            [.infos (cic.groupResource mapping) (cic.UnstructuredToObjMeta inv).Namespace
                (cic.InventoryLabel ++ "=" ++ label),
              .infos (cic.groupResource mapping) (cic.UnstructuredToObjMeta inv).Namespace
                (cic.InventoryLabel ++ "=" ++ label)] }) := by
    simp [Merge, GetClusterObjs, getClusterInventoryInfo, hmap, hlabel, hlocate, hload, heq,
      World.record]
  have hr : Replace cic (some inv) objs w =
      (none,
        { cluster := w.cluster,
          trace := w.trace ++
            [.infos (cic.groupResource mapping) (cic.UnstructuredToObjMeta inv).Namespace
                (cic.InventoryLabel ++ "=" ++ label)] }) := by
    simp [Replace, GetClusterObjs, getClusterInventoryInfo, hmap, hlabel, hlocate, hload, heq,
      World.record]
  refine ⟨hm, ?_, hr, ?_⟩
  · rw [hm]
    simp [World.mutations, RemoteOp.isMutation]
  · rw [hr]
    simp [World.mutations, RemoteOp.isMutation]

/-- C18, on the in-memory store: the record encodes `{objMeta1, objMeta2}` and the
desired set is `{objMeta2, objMeta1}`; `Merge` and `Replace` only read. -/
theorem idempotent_short_circuit_witness :
    Merge (memClient .DryRunNone) (some localDescriptor) [objMeta2, objMeta1]
        { cluster := [recordOf [objMeta1, objMeta2]], trace := [] } =
      (([], none),
        { cluster := [recordOf [objMeta1, objMeta2]],
          trace := [.infos "configmaps" "default" "inventory-id=id-1",
            .infos "configmaps" "default" "inventory-id=id-1"] }) ∧
    Replace (memClient .DryRunNone) (some localDescriptor) [objMeta2, objMeta1]
        { cluster := [recordOf [objMeta1, objMeta2]], trace := [] } =
      (none,
        { cluster := [recordOf [objMeta1, objMeta2]],
          trace := [.infos "configmaps" "default" "inventory-id=id-1"] }) :=
  have h := idempotent_short_circuit (memClient .DryRunNone) localDescriptor
    [objMeta2, objMeta1] [objMeta1, objMeta2]
    { cluster := [recordOf [objMeta1, objMeta2]], trace := [] } () "id-1"
    (recordOf [objMeta1, objMeta2]) rfl rfl rfl rfl rfl
  ⟨h.1, h.2.2.1⟩

end HealFacts

end CliUtils
